import Mathlib

/-!
# accountsclient: a shallow embedding of `client.go`

The Go package `accountsclient` is a small REST client.  Every public
operation builds a route (and, for `Create`, a JSON body), hands it to the
private method `doRest`, and decodes the answer with `encoding/json`.

Modelling decisions.

* Go `string` and `[]byte` values are byte strings: lists of natural numbers,
  each standing for one byte.  Nothing forces the bytes to be valid UTF-8, as
  in Go.  A number from 256 on stands for no byte; every function treats it as
  it treats a byte that is invalid in UTF-8.  The nil and the empty byte slice
  are both `[]`.  Text is turned into bytes by `utf8`, and `validUTF8` is Go's
  `utf8.Valid`.
* Go `int` values are modelled as `Int`; no arithmetic is performed on them.
* The network (`http.Client.Do` followed by `ioutil.ReadAll`) is an oracle
  `Env.httpDo`: given the requests handed to it so far and the current request
  it answers with a `Reply`.
* `http.NewRequest` is modelled from the Go standard library: it fails on an
  invalid method token and when `url.Parse` fails.  `url.Parse` rejects ASCII
  control characters in the part of the URL before the first `#`; its
  remaining checks are the oracle `Env.urlParseRest`.  A `Request` records the
  URL string that was given to `http.NewRequest`; how `net/http` writes that
  URL on the wire is not modelled.
* `encoding/json` is modelled on bytes: `json.Marshal` with the escaping of the
  Go releases up to 1.21 (later releases write `\b` and `\f` for the bytes 8
  and 12, which decode alike), `json.Unmarshal` as a parser of the JSON grammar
  followed by the binding of the parsed value to the Go structs.
* A run-time panic (nil pointer dereference) is an explicit result.
* Two ghost logs record what happened: `World.calls` (invocations of
  `doRest`) and `World.sent` (requests handed to `http.Client.Do`).
-/

/-! ## Byte strings and UTF-8 -/

/-- The Go constant `utf8.RuneError`, U+FFFD. -/
def RuneError : Nat := 0xfffd

/-- Go `utf8.EncodeRune`: the bytes of a rune; a surrogate or a value above
U+10FFFF is written as `RuneError`. -/
def encodeRune (r : Nat) : List Nat :=
  if r ≤ 0x7f then [r]
  else if r ≤ 0x7ff then [0xc0 + r / 64, 0x80 + r % 64]
  else if r > 0x10ffff ∨ (0xd800 ≤ r ∧ r ≤ 0xdfff) then [0xef, 0xbf, 0xbd]
  else if r ≤ 0xffff then [0xe0 + r / 4096, 0x80 + r / 64 % 64, 0x80 + r % 64]
  else [0xf0 + r / 262144, 0x80 + r / 4096 % 64, 0x80 + r / 64 % 64, 0x80 + r % 64]

/-- The UTF-8 encoding of a list of characters. -/
def utf8Chars : List Char → List Nat
  | [] => []
  | c :: cs => encodeRune c.toNat ++ utf8Chars cs

/-- The bytes of a text: its UTF-8 encoding.  Every valid UTF-8 byte string is
`utf8 s` for one text `s`. -/
def utf8 (s : String) : List Nat :=
  utf8Chars s.toList

/-- A UTF-8 continuation byte, `0x80` to `0xBF`. -/
def isCont (b : Nat) : Bool := 0x80 ≤ b && b ≤ 0xbf

/-- Go `utf8.DecodeRune`: the first rune of a byte string and its width in
bytes; an invalid or incomplete encoding gives `(RuneError, 1)`.  The leading
byte selects the width and the range accepted for the second byte. -/
def decodeRune : List Nat → Nat × Nat
  | [] => (RuneError, 0)
  | p0 :: rest =>
    if p0 < 0x80 then (p0, 1)
    else if 0xc2 ≤ p0 ∧ p0 ≤ 0xdf then
      match rest with
      | b1 :: _ =>
        if isCont b1 then (p0 % 32 * 64 + b1 % 64, 2) else (RuneError, 1)
      | _ => (RuneError, 1)
    else if 0xe0 ≤ p0 ∧ p0 ≤ 0xef then
      match rest with
      | b1 :: b2 :: _ =>
        if (if p0 = 0xe0 then 0xa0 else 0x80) ≤ b1 ∧ b1 ≤ (if p0 = 0xed then 0x9f else 0xbf)
            ∧ isCont b2 then
          (p0 % 16 * 4096 + b1 % 64 * 64 + b2 % 64, 3)
        else (RuneError, 1)
      | _ => (RuneError, 1)
    else if 0xf0 ≤ p0 ∧ p0 ≤ 0xf4 then
      match rest with
      | b1 :: b2 :: b3 :: _ =>
        if (if p0 = 0xf0 then 0x90 else 0x80) ≤ b1 ∧ b1 ≤ (if p0 = 0xf4 then 0x8f else 0xbf)
            ∧ isCont b2 ∧ isCont b3 then
          (p0 % 8 * 262144 + b1 % 64 * 4096 + b2 % 64 * 64 + b3 % 64, 4)
        else (RuneError, 1)
      | _ => (RuneError, 1)
    else (RuneError, 1)

/-! ## Data model -/

/-- The Go constant `defaultEndpoint`. -/
def defaultEndpoint : List Nat := utf8 "https://api.form3.tech"

/-- The Go struct `AccountAttributes`. -/
structure AccountAttributes where
  BankId : List Nat
  BankIdCode : List Nat
  BaseCurrency : List Nat
  Bic : List Nat
  Country : List Nat
  deriving DecidableEq, Repr

/-- The Go struct `Account`; the field `Type` is written `Type_`. -/
structure Account where
  Id : List Nat
  OrganisationId : List Nat
  CreatedOn : List Nat
  ModifiedOn : List Nat
  Version : Int
  Type_ : List Nat
  Attributes : AccountAttributes
  deriving DecidableEq, Repr

/-- The Go struct `AccountResponse`; the map is an association list and the
nil map is the empty list. -/
structure AccountResponse where
  Account : Account
  Links : List (List Nat × List Nat)
  deriving DecidableEq, Repr

/-- The Go struct `AccountsResponse`; `Accounts` holds the elements of the
slice up to its length. -/
structure AccountsResponse where
  Accounts : List Account
  Links : List (List Nat × List Nat)
  deriving DecidableEq, Repr

/-- The Go struct `createRequest`. -/
structure createRequest where
  Account : Account
  deriving DecidableEq, Repr

/-- The Go struct `AccountsClient`; the `httpClient` field is the oracle `Env.httpDo`. -/
structure AccountsClient where
  endpoint : List Nat
  deriving DecidableEq, Repr

/-- Zero value of `AccountAttributes`. -/
def AccountAttributes.zero : AccountAttributes := ⟨[], [], [], [], []⟩

/-- Zero value of `Account`. -/
def Account.zero : Account := ⟨[], [], [], [], 0, [], AccountAttributes.zero⟩

/-- Zero value of `AccountResponse` (the Go literal `AccountResponse{}`). -/
def AccountResponse.zero : AccountResponse := ⟨Account.zero, []⟩

/-- Zero value of `AccountsResponse` (the Go literal `AccountsResponse{}`). -/
def AccountsResponse.zero : AccountsResponse := ⟨[], []⟩

/-! ## The world: requests, replies, errors -/

/-- An `*http.Request` as far as this package determines it: the method, the
URL string given to `http.NewRequest`, the body and the `Content-Type` header. -/
structure Request where
  method : List Nat
  url : List Nat
  body : List Nat
  contentType : List Nat
  deriving DecidableEq, Repr

/-- One invocation of `doRest`: the method token, the route and the body. -/
structure RestCall where
  httpMethod : List Nat
  route : List Nat
  jsonData : List Nat
  deriving DecidableEq, Repr

/-- Outcome of `c.httpClient.Do(req)` followed by `ioutil.ReadAll(resp.Body)`. -/
inductive Reply where
  /-- `Do` returned a non-nil error: no response was received. -/
  | doError
  /-- A response with this status arrived but reading its body failed. -/
  | readError (status : Int)
  /-- A response with this status and body arrived. -/
  | response (status : Int) (body : List Nat)
  deriving DecidableEq, Repr

/-- Go `error` values created by this package or returned by `json.Unmarshal`. -/
inductive GoError where
  /-- An error made by `fmt.Errorf`, with its message. -/
  | errorf (msg : List Nat)
  /-- A non-nil error returned by `json.Unmarshal`. -/
  | unmarshal
  deriving DecidableEq, Repr

/-- Ghost state: what the client has done so far. -/
structure World where
  /-- Invocations of `doRest`, oldest first. -/
  calls : List RestCall
  /-- Requests handed to `http.Client.Do`, oldest first. -/
  sent : List Request
  deriving DecidableEq, Repr

/-- The environment of the client: the network and the rest of `url.Parse`. -/
structure Env where
  /-- The checks of `url.Parse` other than the control-character check. -/
  urlParseRest : List Nat → Bool
  /-- The network: requests sent before, current request, reply. -/
  httpDo : List Request → Request → Reply

/-- A function either returns a value or panics. -/
inductive Result (α : Type) where
  | panicked
  | returned (val : α)
  deriving DecidableEq, Repr

/-- State after a method call together with its result. -/
structure Step (α : Type) where
  client : AccountsClient
  world : World
  result : Result α

/-! ## Standard-library functions used by `doRest` -/

/-- Go `fmt` verbs `%d` and `%v` on an `int`: signed decimal. -/
def fmtD (n : Int) : List Nat :=
  utf8 (if n < 0 then "-" ++ Nat.repr n.natAbs else Nat.repr n.natAbs)

/-- Go `httpguts.IsTokenRune`, on a byte: the characters allowed in a method
token are ASCII letters, digits and ``!#$%&'*+-.^_`|~``. -/
def isTokenRune (b : Nat) : Bool :=
  (48 ≤ b && b ≤ 57) || (65 ≤ b && b ≤ 90) || (97 ≤ b && b ≤ 122)
    || (utf8 "!#$%&'*+-.^_`|~").contains b

/-- Go `http.validMethod`. -/
def validMethod (method : List Nat) : Bool :=
  method.length > 0 && method.all isTokenRune

/-- Go `url.stringContainsCTLByte`. -/
def stringContainsCTLByte (s : List Nat) : Bool :=
  s.any (fun b => b < 32 || b = 127)

/-- Go `url.Parse` as a success flag: the control-character check is applied
to the part before the first `#` (byte 35), then the remaining checks. -/
def urlParse (env : Env) (rawURL : List Nat) : Bool :=
  if stringContainsCTLByte (rawURL.takeWhile (fun b => b != 35)) then false
  else env.urlParseRest rawURL

/-- Go `http.NewRequest`: `none` is the result `(nil, err)`. -/
def NewRequest (env : Env) (method url body : List Nat) : Option Request :=
  let method := if method = [] then utf8 "GET" else method
  if !validMethod method then none
  else if !urlParse env url then none
  else some ⟨method, url, body, []⟩

/-! ## `doRest` -/

/-- The method `doRest` of `client.go`.  The error of `http.NewRequest` is not
inspected, so a nil request is dereferenced by `req.Header.Set`. -/
def AccountsClient.doRest (env : Env) (c : AccountsClient) (w : World)
    (httpMethod route jsonData : List Nat) : Step (List Nat × Option GoError) :=
  let c1 : AccountsClient := if c.endpoint = [] then ⟨defaultEndpoint⟩ else c
  let w1 : World := ⟨w.calls ++ [⟨httpMethod, route, jsonData⟩], w.sent⟩
  let url := c1.endpoint ++ route
  match NewRequest env httpMethod url jsonData with
  | none => ⟨c1, w1, Result.panicked⟩
  | some req =>
    let req1 : Request := ⟨req.method, req.url, req.body, utf8 "application/vnd.api+json"⟩
    let w2 : World := ⟨w1.calls, w1.sent ++ [req1]⟩
    match env.httpDo w1.sent req1 with
    | Reply.doError => ⟨c1, w2, Result.returned ([], none)⟩
    | Reply.readError _ => ⟨c1, w2, Result.returned ([], none)⟩
    | Reply.response status body =>
      if status < 200 || status > 299 then
        ⟨c1, w2, Result.returned ([], some (GoError.errorf (fmtD status ++ utf8 " != 2xx")))⟩
      else
        ⟨c1, w2, Result.returned (body, none)⟩

/-! ## `encoding/json`: the text layer

The decoder of Go's `encoding/json` first checks that the input is one JSON
value in the grammar of RFC 8259, nested at most 10000 deep, and then stores
it into the target.  The model parses the bytes into a `JSON` tree
(`parseJSON`) and then binds the tree to the Go structs.  Bytes are written as
numbers: 34 is the quote, 92 the backslash, 123 and 125 the braces, 91 and 93
the brackets, 58 the colon, 44 the comma, 117 the letter `u`. -/

/-- A JSON value; a number keeps its literal text, a string its decoded bytes. -/
inductive JSON where
  | null
  | bool (b : Bool)
  | num (lit : List Nat)
  | str (s : List Nat)
  | arr (elems : List JSON)
  | obj (members : List (List Nat × JSON))

/-- JSON white space: space, tab, carriage return, line feed. -/
def isSpace (c : Nat) : Bool :=
  c = 32 || c = 9 || c = 13 || c = 10

/-- Drop leading white space. -/
def skipSpace : List Nat → List Nat
  | [] => []
  | c :: cs => if isSpace c then skipSpace cs else c :: cs

/-- A decimal digit, `0` to `9`. -/
def isDigit (c : Nat) : Bool := 48 ≤ c && c ≤ 57

/-- Value of a hexadecimal digit. -/
def hexVal (c : Nat) : Option Nat :=
  if 48 ≤ c ∧ c ≤ 57 then some (c - 48)
  else if 97 ≤ c ∧ c ≤ 102 then some (c - 87)
  else if 65 ≤ c ∧ c ≤ 70 then some (c - 55)
  else none

/-- Go `getu4` on the four bytes after `\u`. -/
def getu4 (a b c d : Nat) : Option Nat :=
  match hexVal a, hexVal b, hexVal c, hexVal d with
  | some x, some y, some z, some w => some (((x * 16 + y) * 16 + z) * 16 + w)
  | _, _, _, _ => none

/-- Go `utf16.IsSurrogate`. -/
def isSurrogate (r : Nat) : Bool := 0xd800 ≤ r && r < 0xe000

/-- Go `utf16.DecodeRune`: `none` stands for the replacement character. -/
def decodeSurrogates (r1 r2 : Nat) : Option Nat :=
  if 0xd800 ≤ r1 ∧ r1 < 0xdc00 ∧ 0xdc00 ≤ r2 ∧ r2 < 0xe000 then
    some ((r1 - 0xd800) * 1024 + (r2 - 0xdc00) + 0x10000)
  else none

/-- The byte of a one-letter escape: `\"`, `\\`, `\/`, `\b`, `\f`, `\n`,
`\r`, `\t`. -/
def simpleEscape (e : Nat) : Option Nat :=
  if e = 34 then some 34
  else if e = 92 then some 92
  else if e = 47 then some 47
  else if e = 98 then some 8
  else if e = 102 then some 12
  else if e = 110 then some 10
  else if e = 114 then some 13
  else if e = 116 then some 9
  else none

/-- The rune of a leading `\uXXXX` escape, if the input starts with one. -/
def peekU4 : List Nat → Option Nat
  | b2 :: u2 :: k1 :: k2 :: k3 :: k4 :: _ =>
    if b2 = 92 ∧ u2 = 117 then getu4 k1 k2 k3 k4 else none
  | _ => none

/-- Read a string literal after its opening quote: the decoded bytes and the
input after the closing quote (Go's scanner followed by `unquote`).  A byte
from `0x80` on is decoded with `utf8.DecodeRune` and written back with
`utf8.EncodeRune`, which turns invalid UTF-8 into U+FFFD.  The first argument
counts bytes still to be passed over: the rest of a rune already decoded, or
the six bytes of a low-surrogate escape decoded with its high surrogate. -/
def parseStringAux : Nat → List Nat → Option (List Nat × List Nat)
  | _, [] => none
  | skip + 1, _ :: rest => parseStringAux skip rest
  | 0, c :: rest =>
    if c = 34 then some ([], rest)
    else if c = 92 then
      match rest with
      | [] => none
      | e :: rest1 =>
        if e = 117 then
          match rest1 with
          | h1 :: h2 :: h3 :: h4 :: rest2 =>
            match getu4 h1 h2 h3 h4 with
            | none => none
            | some rr =>
              if isSurrogate rr then
                match (peekU4 rest2).bind (decodeSurrogates rr) with
                | some dec =>
                  (parseStringAux 6 rest2).map (fun p => (encodeRune dec ++ p.1, p.2))
                | none =>
                  (parseStringAux 0 rest2).map (fun p => (encodeRune RuneError ++ p.1, p.2))
              else (parseStringAux 0 rest2).map (fun p => (encodeRune rr ++ p.1, p.2))
          | _ => none
        else
          match simpleEscape e with
          | none => none
          | some ch => (parseStringAux 0 rest1).map (fun p => (ch :: p.1, p.2))
    else if c < 32 then none
    else if c < 0x80 then (parseStringAux 0 rest).map (fun p => (c :: p.1, p.2))
    else
      (parseStringAux ((decodeRune (c :: rest)).2 - 1) rest).map
        (fun p => (encodeRune (decodeRune (c :: rest)).1 ++ p.1, p.2))

/-- Read a string literal after its opening quote. -/
def parseString (cs : List Nat) : Option (List Nat × List Nat) :=
  parseStringAux 0 cs

/-- Split off the longest prefix of decimal digits. -/
def spanDigits : List Nat → List Nat × List Nat
  | [] => ([], [])
  | c :: cs =>
    if isDigit c then ((spanDigits cs).1.cons c, (spanDigits cs).2) else ([], c :: cs)

/-- Read a number literal in the JSON grammar: its text and the rest.  Byte 45
is the minus sign, 46 the point, 101 and 69 the exponent letters, 43 the plus. -/
def parseNumber (cs : List Nat) : Option (List Nat × List Nat) :=
  let (sign, cs1) := match cs with
    | [] => ([], cs)
    | m :: r => if m = 45 then ([45], r) else ([], cs)
  let (ip, cs2) := spanDigits cs1
  if ip = [] then none
  else if ip.head? = some 48 ∧ ip.length > 1 then
    -- a leading zero ends the integer part
    none
  else
    let fracRes : Option (List Nat × List Nat) := match cs2 with
      | [] => some ([], cs2)
      | d :: r =>
        if d = 46 then
          let (fp, r1) := spanDigits r
          if fp = [] then none else some (46 :: fp, r1)
        else some ([], cs2)
    match fracRes with
    | none => none
    | some (frac, cs3) =>
      let expRes : Option (List Nat × List Nat) := match cs3 with
        | e :: r =>
          if e = 101 ∨ e = 69 then
            let (sg, r0) := match r with
              | s :: r2 => if s = 43 ∨ s = 45 then ([s], r2) else ([], r)
              | [] => ([], r)
            let (ep, r1) := spanDigits r0
            if ep = [] then none else some (e :: sg ++ ep, r1)
          else some ([], cs3)
        | [] => some ([], cs3)
      match expRes with
      | none => none
      | some (ex, cs4) => some (sign ++ ip ++ frac ++ ex, cs4)

/-- The scanner constant `maxNestingDepth`. -/
def maxNestingDepth : Nat := 10000

mutual
/-- Read one JSON value, after optional white space.  The first argument bounds
the number of nested calls; `parseJSON` supplies the input length plus one.
The second argument is the number of objects and arrays that are open. -/
def parseValue : Nat → Nat → List Nat → Option (JSON × List Nat)
  | 0, _, _ => none
  | fuel + 1, depth, cs =>
    match skipSpace cs with
    | [] => none
    | c :: rest =>
      if c = 34 then
        (parseString rest).map (fun p => (JSON.str p.1, p.2))
      else if c = 123 then
        if depth ≥ maxNestingDepth then none
        else
          match skipSpace rest with
          | [] => none
          | d :: rest1 =>
            if d = 125 then some (JSON.obj [], rest1)
            else (parseMembers fuel (depth + 1) (d :: rest1)).map (fun p => (JSON.obj p.1, p.2))
      else if c = 91 then
        if depth ≥ maxNestingDepth then none
        else
          match skipSpace rest with
          | [] => none
          | d :: rest1 =>
            if d = 93 then some (JSON.arr [], rest1)
            else (parseElements fuel (depth + 1) (d :: rest1)).map (fun p => (JSON.arr p.1, p.2))
      else if c = 116 then
        if rest.take 3 = utf8 "rue" then some (JSON.bool true, rest.drop 3) else none
      else if c = 102 then
        if rest.take 4 = utf8 "alse" then some (JSON.bool false, rest.drop 4) else none
      else if c = 110 then
        if rest.take 3 = utf8 "ull" then some (JSON.null, rest.drop 3) else none
      else if c = 45 ∨ isDigit c then
        (parseNumber (c :: rest)).map (fun p => (JSON.num p.1, p.2))
      else none
/-- Read the members of an object up to and including the closing brace; the
input starts at the first key, after white space. -/
def parseMembers : Nat → Nat → List Nat → Option (List (List Nat × JSON) × List Nat)
  | 0, _, _ => none
  | fuel + 1, depth, cs =>
    match skipSpace cs with
    | [] => none
    | q :: rest =>
      if q = 34 then
        match parseString rest with
        | none => none
        | some (key, rest1) =>
          match skipSpace rest1 with
          | [] => none
          | colon :: rest2 =>
            if colon = 58 then
              match parseValue fuel depth rest2 with
              | none => none
              | some (v, rest3) =>
                match skipSpace rest3 with
                | [] => none
                | sep :: rest4 =>
                  if sep = 44 then
                    (parseMembers fuel depth rest4).map (fun p => ((key, v) :: p.1, p.2))
                  else if sep = 125 then some ([(key, v)], rest4)
                  else none
            else none
      else none
/-- Read the elements of an array up to and including the closing bracket. -/
def parseElements : Nat → Nat → List Nat → Option (List JSON × List Nat)
  | 0, _, _ => none
  | fuel + 1, depth, cs =>
    match parseValue fuel depth cs with
    | none => none
    | some (v, rest) =>
      match skipSpace rest with
      | [] => none
      | sep :: rest1 =>
        if sep = 44 then (parseElements fuel depth rest1).map (fun p => (v :: p.1, p.2))
        else if sep = 93 then some ([v], rest1)
        else none
end

/-- Parse a complete JSON text: one value, optionally surrounded by white space. -/
def parseJSON (text : List Nat) : Option JSON :=
  match parseValue (text.length + 1) 0 text with
  | none => none
  | some (v, rest) => if skipSpace rest = [] then some v else none

/-! ## `encoding/json`: binding JSON values to the Go structs

`json.Unmarshal` stores into an existing value: a JSON `null` leaves a string,
integer or struct target unchanged, a value of the wrong kind is an error, and
an object member whose key matches no field is passed over.  Every error makes
`Unmarshal` return a non-nil error, here `none`. -/

/-- Go `foldName`: the folded form of a key, equal for two names exactly when
they match case-insensitively.  ASCII letters go to upper case; the Kelvin
sign U+212A folds to `K` (75) and the long s U+017F to `S` (83), the only
runes outside ASCII that fold to an ASCII letter; other runes are kept.  The
first argument counts the remaining bytes of a rune already folded. -/
def foldName : Nat → List Nat → List Nat
  | _, [] => []
  | skip + 1, _ :: rest => foldName skip rest
  | 0, c :: rest =>
    if c < 0x80 then
      (if 97 ≤ c ∧ c ≤ 122 then c - 32 else c) :: foldName 0 rest
    else
      (if (decodeRune (c :: rest)).1 = 0x212a then [75]
       else if (decodeRune (c :: rest)).1 = 0x17f then [83]
       else encodeRune (decodeRune (c :: rest)).1)
        ++ foldName ((decodeRune (c :: rest)).2 - 1) rest

/-- The field a key selects: an exact match if there is one, else the first
field whose name matches case-insensitively. -/
def findField (names : List (List Nat)) (key : List Nat) : Option (List Nat) :=
  if names.contains key then some key
  else names.find? (fun n => foldName 0 n = foldName 0 key)

/-- Store the members of a JSON object one after the other. -/
def decodeMembers {α : Type} (set : α → List Nat → JSON → Option α) :
    List (List Nat × JSON) → α → Option α
  | [], a => some a
  | (k, v) :: ms, a =>
    match set a k v with
    | none => none
    | some a1 => decodeMembers set ms a1

/-- Store a JSON value into a Go `string`. -/
def decodeString (cur : List Nat) : JSON → Option (List Nat)
  | JSON.str s => some s
  | JSON.null => some cur
  | _ => none

/-- Value of a list of decimal digits. -/
def digitsVal (ds : List Nat) : Nat :=
  ds.foldl (fun acc d => acc * 10 + (d - 48)) 0

/-- Go `strconv.ParseInt(lit, 10, 64)` on a JSON number literal. -/
def parseInt64 (lit : List Nat) : Option Int :=
  match lit with
  | [] => none
  | c :: ds =>
    if c = 45 then
      if ds ≠ [] ∧ ds.all isDigit ∧ digitsVal ds ≤ 2 ^ 63 then
        some (-(digitsVal ds : Int))
      else none
    else if (c :: ds).all isDigit ∧ digitsVal (c :: ds) < 2 ^ 63 then
      some (digitsVal (c :: ds) : Int)
    else none

/-- Store a JSON value into a Go `int`. -/
def decodeInt (cur : Int) : JSON → Option Int
  | JSON.num lit => parseInt64 lit
  | JSON.null => some cur
  | _ => none

/-- JSON names of the fields of `AccountAttributes`. -/
def attributesFields : List (List Nat) :=
  [utf8 "bank_id", utf8 "bank_id_code", utf8 "base_currency", utf8 "bic", utf8 "country"]

/-- JSON names of the fields of `Account`. -/
def accountFields : List (List Nat) :=
  [utf8 "id", utf8 "organisation_id", utf8 "created_on", utf8 "modified_on", utf8 "version",
    utf8 "type", utf8 "attributes"]

/-- JSON names of the fields of `AccountResponse` and `AccountsResponse`. -/
def responseFields : List (List Nat) := [utf8 "data", utf8 "links"]

/-- Store one object member into an `AccountAttributes`. -/
def setAttributesField (a : AccountAttributes) (key : List Nat) (v : JSON) :
    Option AccountAttributes :=
  match findField attributesFields key with
  | none => some a
  | some f =>
    if f = utf8 "bank_id" then
      (decodeString a.BankId v).map (fun s => ⟨s, a.BankIdCode, a.BaseCurrency, a.Bic, a.Country⟩)
    else if f = utf8 "bank_id_code" then
      (decodeString a.BankIdCode v).map (fun s => ⟨a.BankId, s, a.BaseCurrency, a.Bic, a.Country⟩)
    else if f = utf8 "base_currency" then
      (decodeString a.BaseCurrency v).map (fun s => ⟨a.BankId, a.BankIdCode, s, a.Bic, a.Country⟩)
    else if f = utf8 "bic" then
      (decodeString a.Bic v).map (fun s => ⟨a.BankId, a.BankIdCode, a.BaseCurrency, s, a.Country⟩)
    else
      (decodeString a.Country v).map (fun s => ⟨a.BankId, a.BankIdCode, a.BaseCurrency, a.Bic, s⟩)

/-- Store a JSON value into an `AccountAttributes`. -/
def decodeAttributes (cur : AccountAttributes) : JSON → Option AccountAttributes
  | JSON.obj ms => decodeMembers setAttributesField ms cur
  | JSON.null => some cur
  | _ => none

/-- Store one object member into an `Account`. -/
def setAccountField (a : Account) (key : List Nat) (v : JSON) : Option Account :=
  match findField accountFields key with
  | none => some a
  | some f =>
    if f = utf8 "id" then
      (decodeString a.Id v).map (fun s =>
        ⟨s, a.OrganisationId, a.CreatedOn, a.ModifiedOn, a.Version, a.Type_, a.Attributes⟩)
    else if f = utf8 "organisation_id" then
      (decodeString a.OrganisationId v).map (fun s =>
        ⟨a.Id, s, a.CreatedOn, a.ModifiedOn, a.Version, a.Type_, a.Attributes⟩)
    else if f = utf8 "created_on" then
      (decodeString a.CreatedOn v).map (fun s =>
        ⟨a.Id, a.OrganisationId, s, a.ModifiedOn, a.Version, a.Type_, a.Attributes⟩)
    else if f = utf8 "modified_on" then
      (decodeString a.ModifiedOn v).map (fun s =>
        ⟨a.Id, a.OrganisationId, a.CreatedOn, s, a.Version, a.Type_, a.Attributes⟩)
    else if f = utf8 "version" then
      (decodeInt a.Version v).map (fun n =>
        ⟨a.Id, a.OrganisationId, a.CreatedOn, a.ModifiedOn, n, a.Type_, a.Attributes⟩)
    else if f = utf8 "type" then
      (decodeString a.Type_ v).map (fun s =>
        ⟨a.Id, a.OrganisationId, a.CreatedOn, a.ModifiedOn, a.Version, s, a.Attributes⟩)
    else
      (decodeAttributes a.Attributes v).map (fun t =>
        ⟨a.Id, a.OrganisationId, a.CreatedOn, a.ModifiedOn, a.Version, a.Type_, t⟩)

/-- Store a JSON value into an `Account`. -/
def decodeAccount (cur : Account) : JSON → Option Account
  | JSON.obj ms => decodeMembers setAccountField ms cur
  | JSON.null => some cur
  | _ => none

/-- Set a key of a Go map, kept as an association list. -/
def mapInsert (m : List (List Nat × List Nat)) (k v : List Nat) : List (List Nat × List Nat) :=
  if m.any (fun p => p.1 = k) then m.map (fun p => if p.1 = k then (k, v) else p)
  else m ++ [(k, v)]

/-- Store a JSON value into a `map[string]string`. -/
def decodeLinks (cur : List (List Nat × List Nat)) : JSON → Option (List (List Nat × List Nat))
  | JSON.obj ms =>
    decodeMembers (fun m k v => (decodeString [] v).map (fun s => mapInsert m k s)) ms cur
  | JSON.null => some []
  | _ => none

/-- A Go slice of accounts while it is decoded into: the backing array, whose
length is the capacity, and the length of the slice. -/
structure AccountSlice where
  backing : List Account
  len : Nat
  deriving DecidableEq, Repr

/-- The nil slice. -/
def AccountSlice.zero : AccountSlice := ⟨[], 0⟩

/-- The elements of a slice. -/
def AccountSlice.elems (v : AccountSlice) : List Account := v.backing.take v.len

/-- Grow a slice whose capacity is used up, as the decoder does: the capacity
becomes `cap + cap / 2`, at least 4; the elements up to the length are copied
and the rest is zero. -/
def AccountSlice.grow (v : AccountSlice) : AccountSlice :=
  let newcap := if v.backing.length + v.backing.length / 2 < 4 then 4
    else v.backing.length + v.backing.length / 2
  ⟨v.backing.take v.len ++ List.replicate (newcap - v.len) Account.zero, v.len⟩

/-- The loop of the decoder over the elements of a JSON array: element `i` is
stored into the element `i` that the slice already has, or into the one that
lengthening the slice uncovers. -/
def decodeAccountElems : List JSON → Nat → AccountSlice → Option AccountSlice
  | [], i, v =>
    if i = 0 then some AccountSlice.zero
    else if i < v.len then some ⟨v.backing, i⟩
    else some v
  | x :: xs, i, v =>
    let v1 := if i ≥ v.backing.length then v.grow else v
    let v2 : AccountSlice := if i ≥ v1.len then ⟨v1.backing, i + 1⟩ else v1
    match decodeAccount (v2.backing.getD i Account.zero) x with
    | none => none
    | some a => decodeAccountElems xs (i + 1) ⟨v2.backing.set i a, v2.len⟩

/-- Store a JSON value into a `[]Account`. -/
def decodeAccounts (cur : AccountSlice) : JSON → Option AccountSlice
  | JSON.arr vs => decodeAccountElems vs 0 cur
  | JSON.null => some AccountSlice.zero
  | _ => none

/-- Store one object member into an `AccountResponse`. -/
def setAccountResponseField (r : AccountResponse) (key : List Nat) (v : JSON) :
    Option AccountResponse :=
  match findField responseFields key with
  | none => some r
  | some f =>
    if f = utf8 "data" then (decodeAccount r.Account v).map (fun a => ⟨a, r.Links⟩)
    else (decodeLinks r.Links v).map (fun l => ⟨r.Account, l⟩)

/-- Store one object member into an `AccountsResponse` whose slice is under
construction. -/
def setAccountsResponseField (r : AccountSlice × List (List Nat × List Nat)) (key : List Nat)
    (v : JSON) : Option (AccountSlice × List (List Nat × List Nat)) :=
  match findField responseFields key with
  | none => some r
  | some f =>
    if f = utf8 "data" then (decodeAccounts r.1 v).map (fun a => (a, r.2))
    else (decodeLinks r.2 v).map (fun l => (r.1, l))

/-- Go `json.Unmarshal(body, &resp)` for a zero `resp` of type `AccountResponse`:
`none` is a non-nil error. -/
def unmarshalAccountResponse (body : List Nat) : Option AccountResponse :=
  match parseJSON body with
  | none => none
  | some (JSON.obj ms) => decodeMembers setAccountResponseField ms AccountResponse.zero
  | some JSON.null => some AccountResponse.zero
  | some _ => none

/-- Go `json.Unmarshal(body, &resp)` for a zero `resp` of type `AccountsResponse`. -/
def unmarshalAccountsResponse (body : List Nat) : Option AccountsResponse :=
  match parseJSON body with
  | none => none
  | some (JSON.obj ms) =>
    (decodeMembers setAccountsResponseField ms (AccountSlice.zero, [])).map
      (fun r => ⟨r.1.elems, r.2⟩)
  | some JSON.null => some AccountsResponse.zero
  | some _ => none

/-! ## `encoding/json`: encoding

`json.Marshal` writes a struct as an object with one member per field, in
declaration order and without white space; no field of this package is tagged
`omitempty`, so every field is written.  Strings are quoted with HTML escaping
on, as `json.Marshal` does, and invalid UTF-8 is replaced by U+FFFD. -/

/-- Lower-case hexadecimal digit. -/
def hexDigit (n : Nat) : Nat :=
  (utf8 "0123456789abcdef").getD n 48

/-- The text written for one ASCII byte of a string: the quote (34) and the
backslash (92) get a backslash, line feed, carriage return and tab their
letter, the other control bytes and `<`, `>`, `&` (60, 62, 38) the form
`\u00XX`. -/
def escapeByte (b : Nat) : List Nat :=
  if b = 92 ∨ b = 34 then [92, b]
  else if b = 10 then [92, 110]
  else if b = 13 then [92, 114]
  else if b = 9 then [92, 116]
  else if b < 32 ∨ b = 60 ∨ b = 62 ∨ b = 38 then
    [92, 117, 48, 48, hexDigit (b / 16), hexDigit (b % 16)]
  else [b]

/-- The text written for the bytes of a string, without the quotes.  From byte
`0x80` on the next rune is decoded: an invalid byte is written as `\ufffd`,
U+2028 and U+2029 as `\u2028` and `\u2029`, any other rune as its own bytes.
The first argument counts the remaining bytes of a rune already written. -/
def escapeBytes : Nat → List Nat → List Nat
  | _, [] => []
  | skip + 1, _ :: rest => escapeBytes skip rest
  | 0, b :: rest =>
    if b < 0x80 then escapeByte b ++ escapeBytes 0 rest
    else if (decodeRune (b :: rest)).1 = RuneError ∧ (decodeRune (b :: rest)).2 = 1 then
      utf8 "\\ufffd" ++ escapeBytes 0 rest
    else if (decodeRune (b :: rest)).1 = 0x2028 ∨ (decodeRune (b :: rest)).1 = 0x2029 then
      utf8 "\\u202" ++ hexDigit ((decodeRune (b :: rest)).1 % 16)
        :: escapeBytes ((decodeRune (b :: rest)).2 - 1) rest
    else
      (b :: rest).take (decodeRune (b :: rest)).2
        ++ escapeBytes ((decodeRune (b :: rest)).2 - 1) rest

/-- Go `appendString`: a quoted JSON string. -/
def appendString (s : List Nat) : List Nat :=
  34 :: (escapeBytes 0 s ++ [34])

/-- The JSON text of an `AccountAttributes`. -/
def marshalAttributes (a : AccountAttributes) : List Nat :=
  utf8 "\x7b\"bank_id\":" ++ appendString a.BankId
    ++ utf8 ",\"bank_id_code\":" ++ appendString a.BankIdCode
    ++ utf8 ",\"base_currency\":" ++ appendString a.BaseCurrency
    ++ utf8 ",\"bic\":" ++ appendString a.Bic
    ++ utf8 ",\"country\":" ++ appendString a.Country
    ++ utf8 "\x7d"

/-- The JSON text of an `Account`. -/
def marshalAccount (a : Account) : List Nat :=
  utf8 "\x7b\"id\":" ++ appendString a.Id
    ++ utf8 ",\"organisation_id\":" ++ appendString a.OrganisationId
    ++ utf8 ",\"created_on\":" ++ appendString a.CreatedOn
    ++ utf8 ",\"modified_on\":" ++ appendString a.ModifiedOn
    ++ utf8 ",\"version\":" ++ fmtD a.Version
    ++ utf8 ",\"type\":" ++ appendString a.Type_
    ++ utf8 ",\"attributes\":" ++ marshalAttributes a.Attributes
    ++ utf8 "\x7d"

/-- Go `json.Marshal(req)` for a `createRequest`; it cannot fail. -/
def marshalCreateRequest (req : createRequest) : List Nat :=
  utf8 "\x7b\"data\":" ++ marshalAccount req.Account ++ utf8 "\x7d"

/-! ## The operations of the client -/

/-- The helper `doList` of `client.go`. -/
def AccountsClient.doList (env : Env) (c : AccountsClient) (w : World) (url : List Nat) :
    Step (AccountsResponse × Option GoError) :=
  let s := AccountsClient.doRest env c w (utf8 "GET") url []
  match s.result with
  | Result.panicked => ⟨s.client, s.world, Result.panicked⟩
  | Result.returned (_, some err) =>
    ⟨s.client, s.world, Result.returned (AccountsResponse.zero, some err)⟩
  | Result.returned (body, none) =>
    match unmarshalAccountsResponse body with
    | none => ⟨s.client, s.world, Result.returned (AccountsResponse.zero, some GoError.unmarshal)⟩
    | some resp => ⟨s.client, s.world, Result.returned (resp, none)⟩

/-- The method `Create` of `client.go`; the pointer `accountAttributes` is taken
to be non-nil and is modelled by the struct it points to. -/
def AccountsClient.Create (env : Env) (c : AccountsClient) (w : World)
    (id organisationId : List Nat) (accountAttributes : AccountAttributes) :
    Step (AccountResponse × Option GoError) :=
  let account : Account := ⟨id, organisationId, [], [], 0, utf8 "accounts", accountAttributes⟩
  let req : createRequest := ⟨account⟩
  let jsonData := marshalCreateRequest req
  let s := AccountsClient.doRest env c w (utf8 "POST") (utf8 "/v1/organisation/accounts") jsonData
  match s.result with
  | Result.panicked => ⟨s.client, s.world, Result.panicked⟩
  | Result.returned (_, some err) =>
    ⟨s.client, s.world, Result.returned (AccountResponse.zero, some err)⟩
  | Result.returned (body, none) =>
    match unmarshalAccountResponse body with
    | none => ⟨s.client, s.world, Result.returned (AccountResponse.zero, some GoError.unmarshal)⟩
    | some resp => ⟨s.client, s.world, Result.returned (resp, none)⟩

/-- The method `Fetch` of `client.go`. -/
def AccountsClient.Fetch (env : Env) (c : AccountsClient) (w : World) (id : List Nat) :
    Step (AccountResponse × Option GoError) :=
  let route := utf8 "/v1/organisation/accounts/" ++ id
  let s := AccountsClient.doRest env c w (utf8 "GET") route []
  match s.result with
  | Result.panicked => ⟨s.client, s.world, Result.panicked⟩
  | Result.returned (_, some err) =>
    ⟨s.client, s.world, Result.returned (AccountResponse.zero, some err)⟩
  | Result.returned (body, none) =>
    match unmarshalAccountResponse body with
    | none => ⟨s.client, s.world, Result.returned (AccountResponse.zero, some GoError.unmarshal)⟩
    | some resp => ⟨s.client, s.world, Result.returned (resp, none)⟩

/-- The method `Delete` of `client.go`. -/
def AccountsClient.Delete (env : Env) (c : AccountsClient) (w : World)
    (id : List Nat) (version : Int) : Step (Bool × Option GoError) :=
  let route := utf8 "/v1/organisation/accounts/" ++ id ++ utf8 "?version=" ++ fmtD version
  let s := AccountsClient.doRest env c w (utf8 "DELETE") route []
  match s.result with
  | Result.panicked => ⟨s.client, s.world, Result.panicked⟩
  | Result.returned (_, some err) => ⟨s.client, s.world, Result.returned (false, some err)⟩
  | Result.returned (_, none) => ⟨s.client, s.world, Result.returned (true, none)⟩

/-- The method `List` of `client.go`. -/
def AccountsClient.List (env : Env) (c : AccountsClient) (w : World) :
    Step (AccountsResponse × Option GoError) :=
  AccountsClient.doList env c w (utf8 "/v1/organisation/accounts")

/-- The method `ListPage` of `client.go`. -/
def AccountsClient.ListPage (env : Env) (c : AccountsClient) (w : World)
    (pageNumber pageSize : Int) : Step (AccountsResponse × Option GoError) :=
  AccountsClient.doList env c w
    (utf8 "/v1/organisation/accounts/?page[number]=" ++ fmtD pageNumber
      ++ utf8 "&page[size]=" ++ fmtD pageSize)

/-- The keys of a JSON object, in order; no keys for other values. -/
def JSON.keys : JSON → List (List Nat)
  | JSON.obj ms => ms.map Prod.fst
  | _ => []

/-- The JSON value written for an account with version 0. -/
def createdJSON (id org co mo ty : List Nat) (attrs : AccountAttributes) : JSON :=
  JSON.obj [(utf8 "data", JSON.obj [(utf8 "id", JSON.str id),
    (utf8 "organisation_id", JSON.str org),
    (utf8 "created_on", JSON.str co), (utf8 "modified_on", JSON.str mo),
    (utf8 "version", JSON.num (utf8 "0")), (utf8 "type", JSON.str ty),
    (utf8 "attributes", JSON.obj [(utf8 "bank_id", JSON.str attrs.BankId),
      (utf8 "bank_id_code", JSON.str attrs.BankIdCode),
      (utf8 "base_currency", JSON.str attrs.BaseCurrency), (utf8 "bic", JSON.str attrs.Bic),
      (utf8 "country", JSON.str attrs.Country)])])]

/-! ## Text: valid UTF-8 -/

/-- A Unicode scalar value: not a surrogate and at most U+10FFFF. -/
def isScalar (r : Nat) : Prop := r < 0xd800 ∨ (0xdfff < r ∧ r < 0x110000)

/-- Being a scalar value is decidable. -/
instance isScalar.decidable (r : Nat) : Decidable (isScalar r) := by
  unfold isScalar
  infer_instance

/-- The text written by `escapeBytes` for the UTF-8 encoding of one scalar value. -/
def escapedRune (r : Nat) : List Nat :=
  if r < 0x80 then escapeByte r
  else if r = 0x2028 ∨ r = 0x2029 then utf8 "\\u202" ++ [hexDigit (r % 16)]
  else encodeRune r

/-- Account attributes given as text, that is, as valid UTF-8. -/
structure AttributesText where
  BankId : String
  BankIdCode : String
  BaseCurrency : String
  Bic : String
  Country : String

/-- The Go value of attributes given as text. -/
def AttributesText.bytes (t : AttributesText) : AccountAttributes :=
  ⟨utf8 t.BankId, utf8 t.BankIdCode, utf8 t.BaseCurrency, utf8 t.Bic, utf8 t.Country⟩

/-- Go `utf8.Valid`, with a counter for the remaining bytes of a rune already
checked: every rune decodes without error. -/
def validUTF8Aux : Nat → List Nat → Bool
  | _, [] => true
  | skip + 1, _ :: rest => validUTF8Aux skip rest
  | 0, b :: rest =>
    if b < 0x80 then validUTF8Aux 0 rest
    else if (decodeRune (b :: rest)).2 = 1 then false
    else validUTF8Aux ((decodeRune (b :: rest)).2 - 1) rest

/-- Go `utf8.Valid`: the byte string is valid UTF-8. -/
def validUTF8 (bs : List Nat) : Bool := validUTF8Aux 0 bs

/-- All five attribute strings are valid UTF-8. -/
def AccountAttributes.valid (a : AccountAttributes) : Bool :=
  validUTF8 a.BankId && validUTF8 a.BankIdCode && validUTF8 a.BaseCurrency
    && validUTF8 a.Bic && validUTF8 a.Country

/-! ## Concrete environments used at explicit inputs -/

/-- A network on which every `Do` fails (nothing listens at the endpoint). -/
def unreachableEnv : Env := ⟨fun _ => true, fun _ _ => Reply.doError⟩

/-- A network on which a response arrives but its body cannot be read. -/
def brokenBodyEnv : Env := ⟨fun _ => true, fun _ _ => Reply.readError 200⟩

/-- A network that answers every request with the given status and body. -/
def constEnv (status : Int) (body : List Nat) : Env :=
  ⟨fun _ => true, fun _ _ => Reply.response status body⟩

/-- A network that answers every request with status 201 and the request body. -/
def echoEnv : Env := ⟨fun _ => true, fun _ req => Reply.response 201 req.body⟩

/-- The client of `TestInvalidEndpoint`. -/
def localClient : AccountsClient := ⟨utf8 "http://localhost:1234"⟩

/-- The client of `setUp`. -/
def testClient : AccountsClient := ⟨utf8 "http://accountapi:8080"⟩

/-- The world before any call. -/
def World.init : World := ⟨[], []⟩

/-- The sample id of the tests. -/
def accId : List Nat := utf8 "0d27e265-9605-4b4b-a0e5-3003ea9cc4db"

/-- The sample organisation id of the tests. -/
def orgId : List Nat := utf8 "eb0bd6f5-c3f5-44b2-b677-acd23cdde73b"

/-- The sample attributes of the tests. -/
def accAttributes : AccountAttributes :=
  ⟨utf8 "400300", utf8 "GBDSC", utf8 "GBP", utf8 "NWBKGB22", utf8 "GB"⟩

/-! ## Basic facts about `doRest` -/

/-- The endpoint `doRest` works with: the default when the field is empty. -/
theorem doRest_client (env : Env) (c : AccountsClient) (w : World)
    (httpMethod route jsonData : List Nat) :
    (AccountsClient.doRest env c w httpMethod route jsonData).client
      = if c.endpoint = [] then ⟨defaultEndpoint⟩ else c := by
  unfold AccountsClient.doRest
  simp only []
  split
  · rfl
  · split <;> [rfl; rfl; (split <;> rfl)]

/-- Every invocation of `doRest` is logged once. -/
theorem doRest_calls (env : Env) (c : AccountsClient) (w : World)
    (httpMethod route jsonData : List Nat) :
    (AccountsClient.doRest env c w httpMethod route jsonData).world.calls
      = w.calls ++ [⟨httpMethod, route, jsonData⟩] := by
  unfold AccountsClient.doRest
  simp only []
  split
  · rfl
  · split <;> [rfl; rfl; (split <;> rfl)]

/-- A request is handed to the network exactly when it could be constructed. -/
theorem doRest_sent (env : Env) (c : AccountsClient) (w : World)
    (httpMethod route jsonData : List Nat) :
    (AccountsClient.doRest env c w httpMethod route jsonData).world.sent
      = match NewRequest env httpMethod
          ((if c.endpoint = [] then defaultEndpoint else c.endpoint) ++ route) jsonData with
        | none => w.sent
        | some req =>
          w.sent ++ [⟨req.method, req.url, req.body, utf8 "application/vnd.api+json"⟩] := by
  unfold AccountsClient.doRest
  have hc : (if c.endpoint = [] then (⟨defaultEndpoint⟩ : AccountsClient) else c).endpoint
      = if c.endpoint = [] then defaultEndpoint else c.endpoint := by
    split <;> rfl
  simp only [hc]
  split
  · rfl
  · split <;> [rfl; rfl; (split <;> rfl)]

/-- The result of `doRest`, case by case. -/
theorem doRest_result (env : Env) (c : AccountsClient) (w : World)
    (httpMethod route jsonData : List Nat) :
    (AccountsClient.doRest env c w httpMethod route jsonData).result
      = match NewRequest env httpMethod
          ((if c.endpoint = [] then defaultEndpoint else c.endpoint) ++ route) jsonData with
        | none => Result.panicked
        | some req =>
          match env.httpDo w.sent
              ⟨req.method, req.url, req.body, utf8 "application/vnd.api+json"⟩ with
          | Reply.doError => Result.returned ([], none)
          | Reply.readError _ => Result.returned ([], none)
          | Reply.response status body =>
            if status < 200 || status > 299 then
              Result.returned ([], some (GoError.errorf (fmtD status ++ utf8 " != 2xx")))
            else Result.returned (body, none) := by
  unfold AccountsClient.doRest
  have hc : (if c.endpoint = [] then (⟨defaultEndpoint⟩ : AccountsClient) else c).endpoint
      = if c.endpoint = [] then defaultEndpoint else c.endpoint := by
    split <;> rfl
  simp only [hc]
  cases NewRequest env httpMethod
      ((if c.endpoint = [] then defaultEndpoint else c.endpoint) ++ route) jsonData with
  | none => rfl
  | some req =>
    simp only []
    cases env.httpDo w.sent ⟨req.method, req.url, req.body, utf8 "application/vnd.api+json"⟩ with
    | doError => rfl
    | readError s => rfl
    | response s b =>
      simp only []
      split <;> rfl

/-- What a successfully constructed request holds. -/
theorem NewRequest_some (env : Env) (method url body : List Nat) (r : Request)
    (h : NewRequest env method url body = some r) :
    r.method = (if method = [] then utf8 "GET" else method) ∧ r.url = url ∧ r.body = body
      ∧ r.contentType = [] ∧ urlParse env url = true := by
  unfold NewRequest at h
  simp only [] at h
  by_cases hv : validMethod (if method = [] then utf8 "GET" else method) = true
  · by_cases hu : urlParse env url = true
    · simp [hv, hu] at h
      subst h
      exact ⟨rfl, rfl, rfl, rfl, hu⟩
    · simp [hv, hu] at h
  · simp [hv] at h

/-- A valid non-empty method and a URL that parses give a request. -/
theorem NewRequest_ok (env : Env) (method url body : List Nat)
    (hm : method ≠ []) (hv : validMethod method = true) (hu : urlParse env url = true) :
    NewRequest env method url body = some ⟨method, url, body, []⟩ := by
  unfold NewRequest
  simp [hm, hv, hu]

/-- A URL that does not parse gives no request. -/
theorem NewRequest_none (env : Env) (method url body : List Nat)
    (hu : urlParse env url = false) :
    NewRequest env method url body = none := by
  unfold NewRequest
  simp [hu]

/-- The log of requests after `doRest` with a valid, non-empty method. -/
theorem doRest_sent_valid (env : Env) (c : AccountsClient) (w : World)
    (httpMethod route jsonData : List Nat)
    (hm : httpMethod ≠ []) (hv : validMethod httpMethod = true) :
    (AccountsClient.doRest env c w httpMethod route jsonData).world.sent
      = w.sent ++
        (if urlParse env ((if c.endpoint = [] then defaultEndpoint else c.endpoint) ++ route)
            = true
         then [⟨httpMethod, (if c.endpoint = [] then defaultEndpoint else c.endpoint) ++ route,
            jsonData, utf8 "application/vnd.api+json"⟩]
         else []) := by
  rw [doRest_sent]
  by_cases hu : urlParse env
      ((if c.endpoint = [] then defaultEndpoint else c.endpoint) ++ route) = true
  · rw [NewRequest_ok env _ _ _ hm hv hu, if_pos hu]
  · rw [NewRequest_none env _ _ _ (by simpa using hu), if_neg hu]
    simp

/-- `Fetch` changes the world as its one call of `doRest` does. -/
theorem Fetch_world (env : Env) (c : AccountsClient) (w : World) (id : List Nat) :
    (AccountsClient.Fetch env c w id).world
      = (AccountsClient.doRest env c w (utf8 "GET")
          (utf8 "/v1/organisation/accounts/" ++ id) []).world := by
  unfold AccountsClient.Fetch
  simp only []
  split
  · rfl
  · rfl
  · split <;> rfl

/-- `Delete` changes the world as its one call of `doRest` does. -/
theorem Delete_world (env : Env) (c : AccountsClient) (w : World) (id : List Nat)
    (version : Int) :
    (AccountsClient.Delete env c w id version).world
      = (AccountsClient.doRest env c w (utf8 "DELETE")
          (utf8 "/v1/organisation/accounts/" ++ id ++ utf8 "?version=" ++ fmtD version)
          []).world := by
  unfold AccountsClient.Delete
  simp only []
  split <;> rfl

/-- `doList` changes the world as its one call of `doRest` does. -/
theorem doList_world (env : Env) (c : AccountsClient) (w : World) (url : List Nat) :
    (AccountsClient.doList env c w url).world
      = (AccountsClient.doRest env c w (utf8 "GET") url []).world := by
  unfold AccountsClient.doList
  simp only []
  split
  · rfl
  · rfl
  · split <;> rfl

/-- `Create` changes the world as its one call of `doRest` does. -/
theorem Create_world (env : Env) (c : AccountsClient) (w : World)
    (id organisationId : List Nat) (attrs : AccountAttributes) :
    (AccountsClient.Create env c w id organisationId attrs).world
      = (AccountsClient.doRest env c w (utf8 "POST") (utf8 "/v1/organisation/accounts")
          (marshalCreateRequest
            ⟨⟨id, organisationId, [], [], 0, utf8 "accounts", attrs⟩⟩)).world := by
  unfold AccountsClient.Create
  simp only []
  split
  · rfl
  · rfl
  · split <;> rfl

/-- Whenever the request is constructed and `Do` fails or the body cannot be
read, `doRest` returns the empty byte slice and a nil error. -/
theorem doRest_transport_failure (env : Env) (c : AccountsClient) (w : World)
    (httpMethod route jsonData : List Nat) (req : Request)
    (hreq : NewRequest env httpMethod
      ((if c.endpoint = [] then defaultEndpoint else c.endpoint) ++ route) jsonData = some req)
    (hdo : env.httpDo w.sent ⟨req.method, req.url, req.body, utf8 "application/vnd.api+json"⟩
        = Reply.doError
      ∨ ∃ s, env.httpDo w.sent ⟨req.method, req.url, req.body, utf8 "application/vnd.api+json"⟩
        = Reply.readError s) :
    (AccountsClient.doRest env c w httpMethod route jsonData).result
      = Result.returned ([], none) := by
  rw [doRest_result, hreq]
  rcases hdo with h | ⟨s, h⟩ <;> simp only [h]

/-- Whenever the request is constructed and `Do` fails, `Delete` returns `true`
and a nil error. -/
theorem Delete_transport_failure (env : Env) (c : AccountsClient) (w : World)
    (id : List Nat) (version : Int)
    (hurl : urlParse env ((if c.endpoint = [] then defaultEndpoint else c.endpoint)
      ++ (utf8 "/v1/organisation/accounts/" ++ id ++ utf8 "?version=" ++ fmtD version)) = true)
    (hdo : env.httpDo w.sent
      ⟨utf8 "DELETE", (if c.endpoint = [] then defaultEndpoint else c.endpoint)
          ++ (utf8 "/v1/organisation/accounts/" ++ id ++ utf8 "?version=" ++ fmtD version), [],
        utf8 "application/vnd.api+json"⟩ = Reply.doError) :
    (AccountsClient.Delete env c w id version).result = Result.returned (true, none) := by
  have hres := doRest_transport_failure env c w (utf8 "DELETE")
    (utf8 "/v1/organisation/accounts/" ++ id ++ utf8 "?version=" ++ fmtD version) [] _
    (NewRequest_ok env _ _ _ (by decide) (by decide) hurl) (Or.inl hdo)
  unfold AccountsClient.Delete
  simp only [hres]

/-! ## Reading back what `json.Marshal` wrote -/

/-- The number of a character is a scalar value. -/
theorem char_isScalar (c : Char) : isScalar c.toNat := c.valid

/-- Decoding the bytes written for a scalar value from U+0080 on gives the value back, with the number of bytes written. -/
theorem decodeRune_encodeRune (r : Nat) (h80 : 0x80 ≤ r) (hv : isScalar r) (tail : List Nat) :
    ∃ b bs, encodeRune r = b :: bs ∧ 0x80 ≤ b ∧ 1 ≤ bs.length
      ∧ decodeRune (b :: (bs ++ tail)) = (r, bs.length + 1) := by
  unfold isScalar at hv
  unfold encodeRune
  split_ifs with h1 h2 h3 h4
  · omega
  · refine ⟨_, _, rfl, by omega, by simp, ?_⟩
    have c1 : ¬ (0xc0 + r / 64 < 0x80) := by omega
    have c2 : 0xc2 ≤ 0xc0 + r / 64 ∧ 0xc0 + r / 64 ≤ 0xdf := by omega
    have c3 : isCont (0x80 + r % 64) = true := by simp [isCont]; omega
    simp only [decodeRune, List.cons_append, List.nil_append, c1, c2, c3, if_true, if_false,
      and_self, List.length_cons, List.length_nil]
    simp
    omega
  · omega
  · refine ⟨_, _, rfl, by omega, by simp, ?_⟩
    have c1 : ¬ (0xe0 + r / 4096 < 0x80) := by omega
    have c2 : ¬ (0xc2 ≤ 0xe0 + r / 4096 ∧ 0xe0 + r / 4096 ≤ 0xdf) := by omega
    have c3 : 0xe0 ≤ 0xe0 + r / 4096 ∧ 0xe0 + r / 4096 ≤ 0xef := by omega
    have c4 : (if 0xe0 + r / 4096 = 0xe0 then 0xa0 else 0x80) ≤ 0x80 + r / 64 % 64 := by
      split <;> omega
    have c5 : 0x80 + r / 64 % 64 ≤ (if 0xe0 + r / 4096 = 0xed then 0x9f else 0xbf) := by
      split <;> omega
    have c6 : isCont (0x80 + r % 64) = true := by simp [isCont]; omega
    simp only [decodeRune, List.cons_append, List.nil_append, c1, c2, c3, c4, c5, c6, if_true,
      if_false, and_self, List.length_cons, List.length_nil]
    simp
    omega
  · refine ⟨_, _, rfl, by omega, by simp, ?_⟩
    have c1 : ¬ (0xf0 + r / 262144 < 0x80) := by omega
    have c2 : ¬ (0xc2 ≤ 0xf0 + r / 262144 ∧ 0xf0 + r / 262144 ≤ 0xdf) := by omega
    have c3 : ¬ (0xe0 ≤ 0xf0 + r / 262144 ∧ 0xf0 + r / 262144 ≤ 0xef) := by omega
    have c3b : 0xf0 ≤ 0xf0 + r / 262144 ∧ 0xf0 + r / 262144 ≤ 0xf4 := by omega
    have c4 : (if 0xf0 + r / 262144 = 0xf0 then 0x90 else 0x80) ≤ 0x80 + r / 4096 % 64 := by
      split <;> omega
    have c5 : 0x80 + r / 4096 % 64 ≤ (if 0xf0 + r / 262144 = 0xf4 then 0x8f else 0xbf) := by
      split <;> omega
    have c6 : isCont (0x80 + r / 64 % 64) = true := by simp [isCont]; omega
    have c7 : isCont (0x80 + r % 64) = true := by simp [isCont]; omega
    simp only [decodeRune, List.cons_append, List.nil_append, c1, c2, c3, c3b, c4, c5, c6, c7,
      if_true, if_false, and_self, List.length_cons, List.length_nil]
    simp
    omega

/-- Passing over the bytes of a rune in `escapeBytes`. -/
theorem escapeBytes_skip (bs tail : List Nat) :
    escapeBytes bs.length (bs ++ tail) = escapeBytes 0 tail := by
  induction bs with
  | nil => rfl
  | cons b bs ih =>
    simp only [List.length_cons, List.cons_append]
    rw [escapeBytes]
    exact ih

/-- Passing over the bytes of a rune in `parseStringAux`. -/
theorem parseStringAux_skip (bs tail : List Nat) :
    parseStringAux bs.length (bs ++ tail) = parseStringAux 0 tail := by
  induction bs with
  | nil => rfl
  | cons b bs ih =>
    simp only [List.length_cons, List.cons_append]
    rw [parseStringAux]
    exact ih

/-- What `escapeBytes` writes for the UTF-8 bytes of one scalar value. -/
theorem escapeBytes_encodeRune (r : Nat) (hv : isScalar r) (tail : List Nat) :
    escapeBytes 0 (encodeRune r ++ tail) = escapedRune r ++ escapeBytes 0 tail := by
  by_cases h80 : r < 0x80
  · have he : encodeRune r = [r] := by
      unfold encodeRune
      rw [if_pos (by omega)]
    rw [he]
    simp only [List.cons_append, List.nil_append]
    conv_lhs => unfold escapeBytes
    simp [h80, escapedRune]
  · obtain ⟨b, bs, he, hb, hlen, hd⟩ := decodeRune_encodeRune r (by omega) hv tail
    rw [he]
    simp only [List.cons_append]
    conv_lhs => unfold escapeBytes
    have hb' : ¬ b < 0x80 := by omega
    have hne : ¬ (r = RuneError ∧ bs.length + 1 = 1) := by omega
    simp only [hb', hd, hne, if_false, Nat.add_sub_cancel, escapeBytes_skip]
    unfold escapedRune
    rw [if_neg h80]
    split_ifs with h28
    · simp
    · rw [he]
      simp [List.take_append_eq_append_take]

/-- Reading back the two hexadecimal digits of a byte below 128. -/
theorem getu4_hexDigit : ∀ n : Fin 128,
    getu4 48 48 (hexDigit (n.val / 16)) (hexDigit (n.val % 16)) = some n.val := by
  decide

/-- The escape `\\u00XX` of a byte below 128 reads back as that byte. -/
theorem parseStringAux_u00 (n : Nat) (hn : n < 128) (tail : List Nat) :
    parseStringAux 0 (92 :: 117 :: 48 :: 48 :: hexDigit (n / 16) :: hexDigit (n % 16) :: tail)
      = (parseStringAux 0 tail).map (fun p => (n :: p.1, p.2)) := by
  have hg := getu4_hexDigit ⟨n, hn⟩
  simp only [] at hg
  have hs : isSurrogate n = false := by
    unfold isSurrogate
    simp
    omega
  have he : encodeRune n = [n] := by
    unfold encodeRune
    rw [if_pos (by omega)]
  conv_lhs => unfold parseStringAux
  simp [hg, hs, he]

/-- The text written for one ASCII byte reads back as that byte. -/
theorem parseStringAux_escapeByte (b : Nat) (hb : b < 0x80) (tail : List Nat) :
    parseStringAux 0 (escapeByte b ++ tail)
      = (parseStringAux 0 tail).map (fun p => (b :: p.1, p.2)) := by
  unfold escapeByte
  split_ifs with h1 h2 h3 h4 h5
  · rcases h1 with h | h <;> subst h <;>
      (conv_lhs => unfold parseStringAux) <;> simp [simpleEscape]
  · subst h2; conv_lhs => unfold parseStringAux
    simp [simpleEscape]
  · subst h3; conv_lhs => unfold parseStringAux
    simp [simpleEscape]
  · subst h4; conv_lhs => unfold parseStringAux
    simp [simpleEscape]
  · simp only [List.cons_append, List.nil_append]
    rw [parseStringAux_u00 _ hb]
  · have hq : b ≠ 34 := fun h => h1 (Or.inr h)
    have hbs : b ≠ 92 := fun h => h1 (Or.inl h)
    have h32 : ¬ b < 32 := fun h => h5 (Or.inl h)
    simp only [List.cons_append, List.nil_append]
    conv_lhs => unfold parseStringAux
    simp [hq, hbs, h32, hb]

/-- The text written for one scalar value reads back as its UTF-8 bytes. -/
theorem parseStringAux_escapedRune (r : Nat) (hv : isScalar r) (tail : List Nat) :
    parseStringAux 0 (escapedRune r ++ tail)
      = (parseStringAux 0 tail).map (fun p => (encodeRune r ++ p.1, p.2)) := by
  unfold escapedRune
  split_ifs with h80 h28
  · have he : encodeRune r = [r] := by
      unfold encodeRune
      rw [if_pos (by omega)]
    rw [parseStringAux_escapeByte r h80, he]
    rfl
  · rcases h28 with h | h <;> subst h
    · have hg : getu4 50 48 50 (hexDigit (0x2028 % 16)) = some 0x2028 := by decide
      have hs : isSurrogate 0x2028 = false := by decide
      have hu : utf8 "\\u202" = [92, 117, 50, 48, 50] := by decide
      rw [hu]
      simp only [List.cons_append, List.nil_append]
      conv_lhs => unfold parseStringAux
      simp only [hg, hs]
      simp
    · have hg : getu4 50 48 50 (hexDigit (0x2029 % 16)) = some 0x2029 := by decide
      have hs : isSurrogate 0x2029 = false := by decide
      have hu : utf8 "\\u202" = [92, 117, 50, 48, 50] := by decide
      rw [hu]
      simp only [List.cons_append, List.nil_append]
      conv_lhs => unfold parseStringAux
      simp only [hg, hs]
      simp
  · obtain ⟨b, bs, he, hb, hlen, hd⟩ := decodeRune_encodeRune r (by omega) hv tail
    rw [he]
    simp only [List.cons_append]
    conv_lhs => unfold parseStringAux
    have c1 : b ≠ 34 := by omega
    have c2 : b ≠ 92 := by omega
    have c3 : ¬ b < 32 := by omega
    have c4 : ¬ b < 0x80 := by omega
    simp only [c1, c2, c3, c4, hd, if_false, Nat.add_sub_cancel, parseStringAux_skip, he]
    rfl

/-- A written string body followed by a quote reads back as the string, for valid UTF-8. -/
theorem parseString_escapeBytes (l : List Char) (rest : List Nat) :
    parseString (escapeBytes 0 (utf8Chars l) ++ 34 :: rest) = some (utf8Chars l, rest) := by
  unfold parseString
  induction l with
  | nil =>
    simp only [utf8Chars, escapeBytes, List.nil_append]
    conv_lhs => unfold parseStringAux
    simp
  | cons c cs ih =>
    simp only [utf8Chars]
    rw [escapeBytes_encodeRune _ (char_isScalar c), List.append_assoc,
      parseStringAux_escapedRune _ (char_isScalar c), ih]
    rfl

/-- A written string body followed by a quote reads back as the string, for a text. -/
theorem parseString_appendString (s : String) (rest : List Nat) :
    parseString (escapeBytes 0 (utf8 s) ++ 34 :: rest) = some (utf8 s, rest) :=
  parseString_escapeBytes s.toList rest

/-- A quoted text is read as a JSON string. -/
theorem parseValue_string (n d : Nat) (s : String) (rest : List Nat) :
    parseValue (n + 1) d (appendString (utf8 s) ++ rest) = some (JSON.str (utf8 s), rest) := by
  unfold appendString
  simp only [List.cons_append, List.append_assoc, List.nil_append]
  conv_lhs => unfold parseValue
  simp [skipSpace, isSpace, parseString_appendString]

/-- Reading one member that is followed by a comma. -/
theorem parseMembers_step_comma (n d : Nat) (k : String) (vrest rest : List Nat) (v : JSON)
    (hv : parseValue (n + 1) d vrest = some (v, 44 :: rest)) :
    parseMembers (n + 2) d (appendString (utf8 k) ++ 58 :: vrest)
      = (parseMembers (n + 1) d rest).map (fun p => ((utf8 k, v) :: p.1, p.2)) := by
  unfold appendString
  simp only [List.cons_append, List.append_assoc, List.nil_append]
  conv_lhs => unfold parseMembers
  simp [skipSpace, isSpace, parseString_appendString, hv]

/-- Reading the last member of an object. -/
theorem parseMembers_step_close (n d : Nat) (k : String) (vrest rest : List Nat) (v : JSON)
    (hv : parseValue (n + 1) d vrest = some (v, 125 :: rest)) :
    parseMembers (n + 2) d (appendString (utf8 k) ++ 58 :: vrest) = some ([(utf8 k, v)], rest) := by
  unfold appendString
  simp only [List.cons_append, List.append_assoc, List.nil_append]
  conv_lhs => unfold parseMembers
  simp [skipSpace, isSpace, parseString_appendString, hv]

/-- Reading an object from its members. -/
theorem parseValue_object (n d : Nat) (hd : d < maxNestingDepth) (k : List Nat)
    (mrest rest : List Nat) (ms : List (List Nat × JSON))
    (hm : parseMembers (n + 1) (d + 1) (appendString k ++ mrest) = some (ms, rest)) :
    parseValue (n + 2) d (123 :: (appendString k ++ mrest)) = some (JSON.obj ms, rest) := by
  conv_lhs => unfold parseValue
  have hk : appendString k ++ mrest = 34 :: (escapeBytes 0 k ++ 34 :: mrest) := by
    simp [appendString]
  have hd' : ¬ d ≥ maxNestingDepth := by omega
  rw [hk] at hm ⊢
  simp [skipSpace, isSpace, hd', hm]

/-- The text of an `AccountAttributes`, member by member. -/
theorem marshalAttributes_append (a : AccountAttributes) (rest : List Nat) :
    marshalAttributes a ++ rest
      = 123 :: (appendString (utf8 "bank_id") ++ 58 :: (appendString a.BankId ++ 44 ::
          (appendString (utf8 "bank_id_code") ++ 58 :: (appendString a.BankIdCode ++ 44 ::
          (appendString (utf8 "base_currency") ++ 58 :: (appendString a.BaseCurrency ++ 44 ::
          (appendString (utf8 "bic") ++ 58 :: (appendString a.Bic ++ 44 ::
          (appendString (utf8 "country") ++ 58 ::
            (appendString a.Country ++ 125 :: rest)))))))))) := by
  have k1 : utf8 "\x7b\"bank_id\":" = 123 :: (appendString (utf8 "bank_id") ++ [58]) := by decide
  have k2 : utf8 ",\"bank_id_code\":" = 44 :: (appendString (utf8 "bank_id_code") ++ [58]) := by
    decide
  have k3 : utf8 ",\"base_currency\":" = 44 :: (appendString (utf8 "base_currency") ++ [58]) := by
    decide
  have k4 : utf8 ",\"bic\":" = 44 :: (appendString (utf8 "bic") ++ [58]) := by decide
  have k5 : utf8 ",\"country\":" = 44 :: (appendString (utf8 "country") ++ [58]) := by decide
  have k6 : utf8 "\x7d" = [125] := by decide
  unfold marshalAttributes
  rw [k1, k2, k3, k4, k5, k6]
  simp only [List.append_assoc, List.cons_append, List.nil_append]

/-- The text of an `AccountAttributes` reads back as an object of five strings. -/
theorem parseValue_marshalAttributes (n d : Nat) (hd : d < maxNestingDepth)
    (t : AttributesText) (rest : List Nat) :
    parseValue (n + 7) d (marshalAttributes t.bytes ++ rest)
      = some (JSON.obj [(utf8 "bank_id", JSON.str (utf8 t.BankId)),
          (utf8 "bank_id_code", JSON.str (utf8 t.BankIdCode)),
          (utf8 "base_currency", JSON.str (utf8 t.BaseCurrency)),
          (utf8 "bic", JSON.str (utf8 t.Bic)),
          (utf8 "country", JSON.str (utf8 t.Country))], rest) := by
  rw [marshalAttributes_append]
  apply parseValue_object (n + 5) d hd
  simp only [AttributesText.bytes]
  rw [parseMembers_step_comma (n + 4) _ _ _ _ _ (parseValue_string _ _ _ _),
    parseMembers_step_comma (n + 3) _ _ _ _ _ (parseValue_string _ _ _ _),
    parseMembers_step_comma (n + 2) _ _ _ _ _ (parseValue_string _ _ _ _),
    parseMembers_step_comma (n + 1) _ _ _ _ _ (parseValue_string _ _ _ _),
    parseMembers_step_close n _ _ _ _ _ (parseValue_string _ _ _ _)]
  rfl

/-- The number `0` before a separator. -/
theorem parseValue_zero (n d : Nat) (sep : Nat) (rest : List Nat)
    (hsep : sep = 44 ∨ sep = 125) :
    parseValue (n + 1) d (48 :: sep :: rest) = some (JSON.num [48], sep :: rest) := by
  conv_lhs => unfold parseValue
  rcases hsep with h | h <;> subst h <;>
    simp [skipSpace, isSpace, parseNumber, spanDigits, isDigit]

/-- The text of an `Account` with version 0, member by member. -/
theorem marshalAccount_append (id org co mo ty : List Nat) (attrs : AccountAttributes)
    (rest : List Nat) :
    marshalAccount ⟨id, org, co, mo, 0, ty, attrs⟩ ++ rest
      = 123 :: (appendString (utf8 "id") ++ 58 :: (appendString id ++ 44 ::
          (appendString (utf8 "organisation_id") ++ 58 :: (appendString org ++ 44 ::
          (appendString (utf8 "created_on") ++ 58 :: (appendString co ++ 44 ::
          (appendString (utf8 "modified_on") ++ 58 :: (appendString mo ++ 44 ::
          (appendString (utf8 "version") ++ 58 :: (48 :: 44 ::
          (appendString (utf8 "type") ++ 58 :: (appendString ty ++ 44 ::
          (appendString (utf8 "attributes") ++ 58 ::
            (marshalAttributes attrs ++ 125 :: rest)))))))))))))) := by
  have k1 : utf8 "\x7b\"id\":" = 123 :: (appendString (utf8 "id") ++ [58]) := by decide
  have k2 : utf8 ",\"organisation_id\":"
      = 44 :: (appendString (utf8 "organisation_id") ++ [58]) := by decide
  have k3 : utf8 ",\"created_on\":" = 44 :: (appendString (utf8 "created_on") ++ [58]) := by
    decide
  have k4 : utf8 ",\"modified_on\":" = 44 :: (appendString (utf8 "modified_on") ++ [58]) := by
    decide
  have k5 : utf8 ",\"version\":" = 44 :: (appendString (utf8 "version") ++ [58]) := by decide
  have k6 : utf8 ",\"type\":" = 44 :: (appendString (utf8 "type") ++ [58]) := by decide
  have k7 : utf8 ",\"attributes\":" = 44 :: (appendString (utf8 "attributes") ++ [58]) := by
    decide
  have k8 : utf8 "\x7d" = [125] := by decide
  have k9 : fmtD 0 = [48] := by decide
  unfold marshalAccount
  simp only []
  rw [k1, k2, k3, k4, k5, k6, k7, k8, k9]
  simp only [List.append_assoc, List.cons_append, List.nil_append]

/-- The text of an `Account` with version 0 reads back as an object of seven members. -/
theorem parseValue_marshalAccount (n d : Nat) (hd : d + 1 < maxNestingDepth)
    (id org co mo ty : String) (t : AttributesText) (rest : List Nat) :
    parseValue (n + 15) d
        (marshalAccount ⟨utf8 id, utf8 org, utf8 co, utf8 mo, 0, utf8 ty, t.bytes⟩ ++ 125 :: rest)
      = some (JSON.obj [(utf8 "id", JSON.str (utf8 id)),
          (utf8 "organisation_id", JSON.str (utf8 org)),
          (utf8 "created_on", JSON.str (utf8 co)), (utf8 "modified_on", JSON.str (utf8 mo)),
          (utf8 "version", JSON.num [48]), (utf8 "type", JSON.str (utf8 ty)),
          (utf8 "attributes", JSON.obj [(utf8 "bank_id", JSON.str (utf8 t.BankId)),
            (utf8 "bank_id_code", JSON.str (utf8 t.BankIdCode)),
            (utf8 "base_currency", JSON.str (utf8 t.BaseCurrency)),
            (utf8 "bic", JSON.str (utf8 t.Bic)),
            (utf8 "country", JSON.str (utf8 t.Country))])], 125 :: rest) := by
  rw [marshalAccount_append]
  apply parseValue_object (n + 13) d (by omega)
  rw [parseMembers_step_comma (n + 12) _ _ _ _ _ (parseValue_string _ _ _ _),
    parseMembers_step_comma (n + 11) _ _ _ _ _ (parseValue_string _ _ _ _),
    parseMembers_step_comma (n + 10) _ _ _ _ _ (parseValue_string _ _ _ _),
    parseMembers_step_comma (n + 9) _ _ _ _ _ (parseValue_string _ _ _ _),
    parseMembers_step_comma (n + 8) _ _ _ _ _ (parseValue_zero _ _ _ _ (Or.inl rfl)),
    parseMembers_step_comma (n + 7) _ _ _ _ _ (parseValue_string _ _ _ _),
    parseMembers_step_close (n + 6) _ _ _ _ _ (parseValue_marshalAttributes n _ hd _ _)]
  rfl

/-- The text of a `createRequest` with version 0 parses to `createdJSON`. -/
theorem parseJSON_marshalCreateRequest (id org co mo ty : String) (t : AttributesText) :
    parseJSON (marshalCreateRequest
        ⟨⟨utf8 id, utf8 org, utf8 co, utf8 mo, 0, utf8 ty, t.bytes⟩⟩)
      = some (createdJSON (utf8 id) (utf8 org) (utf8 co) (utf8 mo) (utf8 ty) t.bytes) := by
  have k1 : utf8 "\x7b\"data\":" = 123 :: (appendString (utf8 "data") ++ [58]) := by decide
  have k2 : utf8 "\x7d" = [125] := by decide
  have k3 : utf8 "0" = [48] := by decide
  have hlist : marshalCreateRequest ⟨⟨utf8 id, utf8 org, utf8 co, utf8 mo, 0, utf8 ty, t.bytes⟩⟩
      = 123 :: (appendString (utf8 "data") ++ 58 ::
          (marshalAccount ⟨utf8 id, utf8 org, utf8 co, utf8 mo, 0, utf8 ty, t.bytes⟩
            ++ 125 :: [])) := by
    unfold marshalCreateRequest
    rw [k1, k2]
    simp only [List.append_assoc, List.cons_append, List.nil_append]
  have hlen : ∃ m,
      (marshalCreateRequest ⟨⟨utf8 id, utf8 org, utf8 co, utf8 mo, 0, utf8 ty, t.bytes⟩⟩).length + 1
        = m + 17 := by
    refine ⟨(marshalCreateRequest
      ⟨⟨utf8 id, utf8 org, utf8 co, utf8 mo, 0, utf8 ty, t.bytes⟩⟩).length - 16, ?_⟩
    have : 16 ≤ (marshalCreateRequest
        ⟨⟨utf8 id, utf8 org, utf8 co, utf8 mo, 0, utf8 ty, t.bytes⟩⟩).length := by
      rw [hlist, marshalAccount_append]
      simp [appendString]
      omega
    omega
  obtain ⟨m, hm⟩ := hlen
  unfold parseJSON
  rw [hm, hlist]
  have hobj := parseValue_object (m + 15) 0 (by decide) (utf8 "data")
    (58 :: (marshalAccount ⟨utf8 id, utf8 org, utf8 co, utf8 mo, 0, utf8 ty, t.bytes⟩
      ++ 125 :: [])) [] _
    (parseMembers_step_close (m + 14) 1 "data" _ _ _
      (parseValue_marshalAccount m 1 (by decide) id org co mo ty t []))
  rw [hobj]
  simp [skipSpace, createdJSON, k3, AttributesText.bytes]

/-- Storing the member `id` of an account. -/
theorem setAccountField_id (a : Account) (v : JSON) :
    setAccountField a (utf8 "id") v
      = (decodeString a.Id v).map (fun s => ⟨s, a.OrganisationId, a.CreatedOn, a.ModifiedOn, a.Version, a.Type_, a.Attributes⟩) := by
  have hf : findField accountFields (utf8 "id") = some (utf8 "id") := by decide
  unfold setAccountField
  rw [hf]
  simp only []
  rw [if_pos trivial]

/-- Storing the member `organisation_id` of an account. -/
theorem setAccountField_organisation_id (a : Account) (v : JSON) :
    setAccountField a (utf8 "organisation_id") v
      = (decodeString a.OrganisationId v).map (fun s => ⟨a.Id, s, a.CreatedOn, a.ModifiedOn, a.Version, a.Type_, a.Attributes⟩) := by
  have hf : findField accountFields (utf8 "organisation_id") = some (utf8 "organisation_id") := by decide
  unfold setAccountField
  rw [hf]
  simp only []
  rw [if_neg (by decide)]
  rw [if_pos trivial]

/-- Storing the member `created_on` of an account. -/
theorem setAccountField_created_on (a : Account) (v : JSON) :
    setAccountField a (utf8 "created_on") v
      = (decodeString a.CreatedOn v).map (fun s => ⟨a.Id, a.OrganisationId, s, a.ModifiedOn, a.Version, a.Type_, a.Attributes⟩) := by
  have hf : findField accountFields (utf8 "created_on") = some (utf8 "created_on") := by decide
  unfold setAccountField
  rw [hf]
  simp only []
  rw [if_neg (by decide)]
  rw [if_neg (by decide)]
  rw [if_pos trivial]

/-- Storing the member `modified_on` of an account. -/
theorem setAccountField_modified_on (a : Account) (v : JSON) :
    setAccountField a (utf8 "modified_on") v
      = (decodeString a.ModifiedOn v).map (fun s => ⟨a.Id, a.OrganisationId, a.CreatedOn, s, a.Version, a.Type_, a.Attributes⟩) := by
  have hf : findField accountFields (utf8 "modified_on") = some (utf8 "modified_on") := by decide
  unfold setAccountField
  rw [hf]
  simp only []
  rw [if_neg (by decide)]
  rw [if_neg (by decide)]
  rw [if_neg (by decide)]
  rw [if_pos trivial]

/-- Storing the member `version` of an account. -/
theorem setAccountField_version (a : Account) (v : JSON) :
    setAccountField a (utf8 "version") v
      = (decodeInt a.Version v).map (fun s => ⟨a.Id, a.OrganisationId, a.CreatedOn, a.ModifiedOn, s, a.Type_, a.Attributes⟩) := by
  have hf : findField accountFields (utf8 "version") = some (utf8 "version") := by decide
  unfold setAccountField
  rw [hf]
  simp only []
  rw [if_neg (by decide)]
  rw [if_neg (by decide)]
  rw [if_neg (by decide)]
  rw [if_neg (by decide)]
  rw [if_pos trivial]

/-- Storing the member `type` of an account. -/
theorem setAccountField_type (a : Account) (v : JSON) :
    setAccountField a (utf8 "type") v
      = (decodeString a.Type_ v).map (fun s => ⟨a.Id, a.OrganisationId, a.CreatedOn, a.ModifiedOn, a.Version, s, a.Attributes⟩) := by
  have hf : findField accountFields (utf8 "type") = some (utf8 "type") := by decide
  unfold setAccountField
  rw [hf]
  simp only []
  rw [if_neg (by decide)]
  rw [if_neg (by decide)]
  rw [if_neg (by decide)]
  rw [if_neg (by decide)]
  rw [if_neg (by decide)]
  rw [if_pos trivial]

/-- Storing the member `attributes` of an account. -/
theorem setAccountField_attributes (a : Account) (v : JSON) :
    setAccountField a (utf8 "attributes") v
      = (decodeAttributes a.Attributes v).map (fun s => ⟨a.Id, a.OrganisationId, a.CreatedOn, a.ModifiedOn, a.Version, a.Type_, s⟩) := by
  have hf : findField accountFields (utf8 "attributes") = some (utf8 "attributes") := by decide
  unfold setAccountField
  rw [hf]
  simp only []
  rw [if_neg (by decide)]
  rw [if_neg (by decide)]
  rw [if_neg (by decide)]
  rw [if_neg (by decide)]
  rw [if_neg (by decide)]
  rw [if_neg (by decide)]

/-- Storing the member `bank_id` of the attributes. -/
theorem setAttributesField_bank_id (a : AccountAttributes) (v : JSON) :
    setAttributesField a (utf8 "bank_id") v
      = (decodeString a.BankId v).map (fun s => ⟨s, a.BankIdCode, a.BaseCurrency, a.Bic, a.Country⟩) := by
  have hf : findField attributesFields (utf8 "bank_id") = some (utf8 "bank_id") := by decide
  unfold setAttributesField
  rw [hf]
  simp only []
  rw [if_pos trivial]

/-- Storing the member `bank_id_code` of the attributes. -/
theorem setAttributesField_bank_id_code (a : AccountAttributes) (v : JSON) :
    setAttributesField a (utf8 "bank_id_code") v
      = (decodeString a.BankIdCode v).map (fun s => ⟨a.BankId, s, a.BaseCurrency, a.Bic, a.Country⟩) := by
  have hf : findField attributesFields (utf8 "bank_id_code") = some (utf8 "bank_id_code") := by decide
  unfold setAttributesField
  rw [hf]
  simp only []
  rw [if_neg (by decide)]
  rw [if_pos trivial]

/-- Storing the member `base_currency` of the attributes. -/
theorem setAttributesField_base_currency (a : AccountAttributes) (v : JSON) :
    setAttributesField a (utf8 "base_currency") v
      = (decodeString a.BaseCurrency v).map (fun s => ⟨a.BankId, a.BankIdCode, s, a.Bic, a.Country⟩) := by
  have hf : findField attributesFields (utf8 "base_currency") = some (utf8 "base_currency") := by decide
  unfold setAttributesField
  rw [hf]
  simp only []
  rw [if_neg (by decide)]
  rw [if_neg (by decide)]
  rw [if_pos trivial]

/-- Storing the member `bic` of the attributes. -/
theorem setAttributesField_bic (a : AccountAttributes) (v : JSON) :
    setAttributesField a (utf8 "bic") v
      = (decodeString a.Bic v).map (fun s => ⟨a.BankId, a.BankIdCode, a.BaseCurrency, s, a.Country⟩) := by
  have hf : findField attributesFields (utf8 "bic") = some (utf8 "bic") := by decide
  unfold setAttributesField
  rw [hf]
  simp only []
  rw [if_neg (by decide)]
  rw [if_neg (by decide)]
  rw [if_neg (by decide)]
  rw [if_pos trivial]

/-- Storing the member `country` of the attributes. -/
theorem setAttributesField_country (a : AccountAttributes) (v : JSON) :
    setAttributesField a (utf8 "country") v
      = (decodeString a.Country v).map (fun s => ⟨a.BankId, a.BankIdCode, a.BaseCurrency, a.Bic, s⟩) := by
  have hf : findField attributesFields (utf8 "country") = some (utf8 "country") := by decide
  unfold setAttributesField
  rw [hf]
  simp only []
  rw [if_neg (by decide)]
  rw [if_neg (by decide)]
  rw [if_neg (by decide)]
  rw [if_neg (by decide)]

/-- Storing the member `data` of a response. -/
theorem setAccountResponseField_data (r : AccountResponse) (v : JSON) :
    setAccountResponseField r (utf8 "data") v
      = (decodeAccount r.Account v).map (fun a => ⟨a, r.Links⟩) := by
  have hf : findField responseFields (utf8 "data") = some (utf8 "data") := by decide
  unfold setAccountResponseField
  rw [hf]
  simp only []
  rw [if_pos trivial]

/-- Decoding the text of a `createRequest` with version 0 as an `AccountResponse` gives the account back, with nil links. -/
theorem unmarshal_marshalCreateRequest (id org co mo ty : String) (t : AttributesText) :
    unmarshalAccountResponse (marshalCreateRequest
        ⟨⟨utf8 id, utf8 org, utf8 co, utf8 mo, 0, utf8 ty, t.bytes⟩⟩)
      = some ⟨⟨utf8 id, utf8 org, utf8 co, utf8 mo, 0, utf8 ty, t.bytes⟩, []⟩ := by
  have z : parseInt64 (utf8 "0") = some 0 := by decide
  unfold unmarshalAccountResponse
  rw [parseJSON_marshalCreateRequest]
  simp only [createdJSON, decodeMembers, setAccountResponseField_data, decodeAccount,
    setAccountField_id, setAccountField_organisation_id, setAccountField_created_on,
    setAccountField_modified_on, setAccountField_version, setAccountField_type,
    setAccountField_attributes, decodeString, decodeInt, z, decodeAttributes,
    setAttributesField_bank_id, setAttributesField_bank_id_code,
    setAttributesField_base_currency, setAttributesField_bic, setAttributesField_country,
    AccountResponse.zero, Account.zero, AccountAttributes.zero, AttributesText.bytes,
    Option.map_some']

/-! ## Valid UTF-8 byte strings are texts -/

/-- A rune that decodes without error from a byte from `0x80` on is a scalar value, and the bytes read are the ones `encodeRune` writes for it. -/
theorem decodeRune_valid (b : Nat) (rest : List Nat) (hb : ¬ b < 0x80)
    (hs : (decodeRune (b :: rest)).2 ≠ 1) :
    ∃ pre tail, rest = pre ++ tail ∧ pre.length = (decodeRune (b :: rest)).2 - 1
      ∧ encodeRune (decodeRune (b :: rest)).1 = b :: pre
      ∧ isScalar (decodeRune (b :: rest)).1 := by
  by_cases h2 : 0xc2 ≤ b ∧ b ≤ 0xdf
  · match rest, hs with
    | [], hs => simp [decodeRune, hb, h2] at hs
    | b1 :: tail, hs =>
      by_cases hc : isCont b1 = true
      · have hd : decodeRune (b :: b1 :: tail) = (b % 32 * 64 + b1 % 64, 2) := by
          simp [decodeRune, hb, h2, hc]
        rw [hd]
        simp only [isCont, Bool.and_eq_true, decide_eq_true_eq] at hc
        refine ⟨[b1], tail, rfl, rfl, ?_, ?_⟩
        · unfold encodeRune
          rw [if_neg (by omega), if_pos (by omega)]
          congr 1
          · omega
          · congr 1; omega
        · unfold isScalar
          omega
      · simp [decodeRune, hb, h2, hc] at hs
  · by_cases h3 : 0xe0 ≤ b ∧ b ≤ 0xef
    · match rest, hs with
      | [], hs => simp [decodeRune, hb, h2, h3] at hs
      | [_], hs => simp [decodeRune, hb, h2, h3] at hs
      | b1 :: b2 :: tail, hs =>
        by_cases hc : (if b = 0xe0 then 0xa0 else 0x80) ≤ b1
            ∧ b1 ≤ (if b = 0xed then 0x9f else 0xbf) ∧ isCont b2 = true
        · have hd : decodeRune (b :: b1 :: b2 :: tail)
              = (b % 16 * 4096 + b1 % 64 * 64 + b2 % 64, 3) := by
            simp only [decodeRune, hb, h2, h3, hc, if_true, if_false, and_self]
          rw [hd]
          obtain ⟨hlo, hhi, hc2⟩ := hc
          simp only [isCont, Bool.and_eq_true, decide_eq_true_eq] at hc2
          have hlo1 : 0x80 ≤ b1 ∧ (b = 0xe0 → 0xa0 ≤ b1) := by
            split_ifs at hlo <;> omega
          have hhi1 : b1 ≤ 0xbf ∧ (b = 0xed → b1 ≤ 0x9f) := by
            split_ifs at hhi <;> omega
          refine ⟨[b1, b2], tail, rfl, rfl, ?_, ?_⟩
          · unfold encodeRune
            rw [if_neg (by omega), if_neg (by omega), if_neg (by omega), if_pos (by omega)]
            congr 1
            · omega
            · congr 1
              · omega
              · congr 1; omega
          · unfold isScalar
            omega
        · simp only [decodeRune, hb, h2, h3, hc, if_true, if_false, and_self] at hs
          simp at hs
    · by_cases h4 : 0xf0 ≤ b ∧ b ≤ 0xf4
      · match rest, hs with
        | [], hs => simp [decodeRune, hb, h2, h3, h4] at hs
        | [_], hs => simp [decodeRune, hb, h2, h3, h4] at hs
        | [_, _], hs => simp [decodeRune, hb, h2, h3, h4] at hs
        | b1 :: b2 :: b3 :: tail, hs =>
          by_cases hc : (if b = 0xf0 then 0x90 else 0x80) ≤ b1
              ∧ b1 ≤ (if b = 0xf4 then 0x8f else 0xbf) ∧ isCont b2 = true ∧ isCont b3 = true
          · have hd : decodeRune (b :: b1 :: b2 :: b3 :: tail)
                = (b % 8 * 262144 + b1 % 64 * 4096 + b2 % 64 * 64 + b3 % 64, 4) := by
              simp only [decodeRune, hb, h2, h3, h4, hc, if_true, if_false, and_self]
            rw [hd]
            obtain ⟨hlo, hhi, hc2, hc3⟩ := hc
            simp only [isCont, Bool.and_eq_true, decide_eq_true_eq] at hc2 hc3
            have hlo1 : 0x80 ≤ b1 ∧ (b = 0xf0 → 0x90 ≤ b1) := by
              split_ifs at hlo <;> omega
            have hhi1 : b1 ≤ 0xbf ∧ (b = 0xf4 → b1 ≤ 0x8f) := by
              split_ifs at hhi <;> omega
            refine ⟨[b1, b2, b3], tail, rfl, rfl, ?_, ?_⟩
            · unfold encodeRune
              rw [if_neg (by omega), if_neg (by omega), if_neg (by omega), if_neg (by omega)]
              congr 1
              · omega
              · congr 1
                · omega
                · congr 1
                  · omega
                  · congr 1; omega
            · unfold isScalar
              omega
          · simp only [decodeRune, hb, h2, h3, h4, hc, if_true, if_false, and_self] at hs
            simp at hs
      · simp [decodeRune, hb, h2, h3, h4] at hs

/-- Passing over the bytes of a rune in `validUTF8Aux`. -/
theorem validUTF8Aux_skip (pre tail : List Nat) :
    validUTF8Aux pre.length (pre ++ tail) = validUTF8Aux 0 tail := by
  induction pre with
  | nil => rfl
  | cons b bs ih =>
    simp only [List.length_cons, List.cons_append]
    rw [validUTF8Aux]
    exact ih

/-- The character of a scalar value has that value as its number. -/
theorem toNat_ofNat_of_isScalar (r : Nat) (h : isScalar r) : (Char.ofNat r).toNat = r := by
  have hv : r.isValidChar := h
  simp only [Char.ofNat, hv, Char.toNat, Char.ofNatAux, dite_true]
  rfl

/-- A valid UTF-8 byte string is the encoding of a list of characters. -/
theorem exists_text_of_validUTF8Aux (n : Nat) :
    ∀ bs : List Nat, bs.length ≤ n → validUTF8Aux 0 bs = true →
      ∃ l : List Char, bs = utf8Chars l := by
  induction n with
  | zero =>
    intro bs hlen _
    have : bs = [] := List.eq_nil_of_length_eq_zero (by omega)
    exact ⟨[], by simp [this, utf8Chars]⟩
  | succ n ih =>
    intro bs hlen hval
    match bs, hlen, hval with
    | [], _, _ => exact ⟨[], rfl⟩
    | b :: rest, hlen, hval =>
      simp only [List.length_cons] at hlen
      by_cases hb : b < 0x80
      · rw [validUTF8Aux, if_pos hb] at hval
        obtain ⟨l, hl⟩ := ih rest (by omega) hval
        refine ⟨Char.ofNat b :: l, ?_⟩
        have hsc : isScalar b := by unfold isScalar; omega
        simp only [utf8Chars, toNat_ofNat_of_isScalar b hsc]
        unfold encodeRune
        rw [if_pos (by omega), ← hl]
        rfl
      · rw [validUTF8Aux, if_neg hb] at hval
        by_cases hs : (decodeRune (b :: rest)).2 = 1
        · simp [hs] at hval
        · rw [if_neg hs] at hval
          obtain ⟨pre, tail, hrest, hpl, henc, hsc⟩ := decodeRune_valid b rest hb hs
          rw [← hpl] at hval
          have hval2 : validUTF8Aux 0 tail = true := by
            have := validUTF8Aux_skip pre tail
            rw [← hrest] at this
            rw [← this]
            exact hval
          obtain ⟨l, hl⟩ := ih tail (by
            have : rest.length = pre.length + tail.length := by rw [hrest]; simp
            omega) hval2
          refine ⟨Char.ofNat (decodeRune (b :: rest)).1 :: l, ?_⟩
          simp only [utf8Chars, toNat_ofNat_of_isScalar _ hsc, henc, ← hl]
          rw [hrest]
          simp

/-- A valid UTF-8 byte string is the encoding of a text. -/
theorem exists_text_of_validUTF8 (bs : List Nat) (h : validUTF8 bs = true) :
    ∃ s : String, bs = utf8 s := by
  obtain ⟨l, hl⟩ := exists_text_of_validUTF8Aux bs.length bs (le_refl _) h
  exact ⟨String.mk l, hl⟩

/-- The encoding of a list of characters is valid UTF-8. -/
theorem validUTF8Aux_utf8Chars (l : List Char) : validUTF8Aux 0 (utf8Chars l) = true := by
  induction l with
  | nil => rfl
  | cons c cs ih =>
    simp only [utf8Chars]
    by_cases h80 : c.toNat < 0x80
    · have he : encodeRune c.toNat = [c.toNat] := by
        unfold encodeRune
        rw [if_pos (by omega)]
      rw [he]
      simp only [List.cons_append, List.nil_append]
      rw [validUTF8Aux, if_pos h80]
      exact ih
    · obtain ⟨b, bs, he, hb, hlen, hd⟩ :=
        decodeRune_encodeRune c.toNat (by omega) (char_isScalar c) (utf8Chars cs)
      rw [he]
      simp only [List.cons_append]
      have hne : ¬ bs.length + 1 = 1 := by omega
      rw [validUTF8Aux, if_neg (by omega), hd]
      simp only [hne, if_false, Nat.add_sub_cancel]
      rw [validUTF8Aux_skip]
      exact ih

/-- The bytes of a text are valid UTF-8. -/
theorem validUTF8_utf8 (s : String) : validUTF8 (utf8 s) = true :=
  validUTF8Aux_utf8Chars s.toList

/-- Valid attributes are the bytes of attributes given as text. -/
theorem exists_attributesText (a : AccountAttributes) (h : a.valid = true) :
    ∃ t : AttributesText, a = t.bytes := by
  simp only [AccountAttributes.valid, Bool.and_eq_true] at h
  obtain ⟨⟨⟨⟨h1, h2⟩, h3⟩, h4⟩, h5⟩ := h
  obtain ⟨s1, e1⟩ := exists_text_of_validUTF8 _ h1
  obtain ⟨s2, e2⟩ := exists_text_of_validUTF8 _ h2
  obtain ⟨s3, e3⟩ := exists_text_of_validUTF8 _ h3
  obtain ⟨s4, e4⟩ := exists_text_of_validUTF8 _ h4
  obtain ⟨s5, e5⟩ := exists_text_of_validUTF8 _ h5
  refine ⟨⟨s1, s2, s3, s4, s5⟩, ?_⟩
  cases a
  simp only [AttributesText.bytes] at *
  simp [e1, e2, e3, e4, e5]

/-- The text of the `createRequest` that `Create` builds parses to `createdJSON`,
for valid UTF-8 inputs. -/
theorem parseJSON_createRequest_valid (id org : List Nat) (attrs : AccountAttributes)
    (hid : validUTF8 id = true) (horg : validUTF8 org = true) (hattrs : attrs.valid = true) :
    parseJSON (marshalCreateRequest ⟨⟨id, org, [], [], 0, utf8 "accounts", attrs⟩⟩)
      = some (createdJSON id org [] [] (utf8 "accounts") attrs) := by
  obtain ⟨sid, rfl⟩ := exists_text_of_validUTF8 _ hid
  obtain ⟨sorg, rfl⟩ := exists_text_of_validUTF8 _ horg
  obtain ⟨t, rfl⟩ := exists_attributesText _ hattrs
  exact parseJSON_marshalCreateRequest sid sorg "" "" "accounts" t

/-- Decoding the text of the `createRequest` that `Create` builds gives the
account back, for valid UTF-8 inputs. -/
theorem unmarshal_createRequest_valid (id org : List Nat) (attrs : AccountAttributes)
    (hid : validUTF8 id = true) (horg : validUTF8 org = true) (hattrs : attrs.valid = true) :
    unmarshalAccountResponse
        (marshalCreateRequest ⟨⟨id, org, [], [], 0, utf8 "accounts", attrs⟩⟩)
      = some ⟨⟨id, org, [], [], 0, utf8 "accounts", attrs⟩, []⟩ := by
  obtain ⟨sid, rfl⟩ := exists_text_of_validUTF8 _ hid
  obtain ⟨sorg, rfl⟩ := exists_text_of_validUTF8 _ horg
  obtain ⟨t, rfl⟩ := exists_attributesText _ hattrs
  exact unmarshal_marshalCreateRequest sid sorg "" "" "accounts" t

/-! ## The claims -/

set_option maxRecDepth 100000

/-- C1 (evaluation at the failing input): on a network where `Do` fails, and on
one where reading the body fails, `doRest` returns the empty byte slice
together with a nil error. -/
theorem C1_doRest_swallows_transport_failure :
    (AccountsClient.doRest unreachableEnv localClient World.init
        (utf8 "GET") (utf8 "/v1/organisation/accounts") []).result = Result.returned ([], none)
    ∧ (AccountsClient.doRest brokenBodyEnv localClient World.init
        (utf8 "GET") (utf8 "/v1/organisation/accounts") []).result
      = Result.returned ([], none) := by
  constructor <;> decide

/-- C2 (evaluation at the failing input): on a network where `Do` fails, so that
no response is delivered, `Delete` returns `true` with a nil error. -/
theorem C2_Delete_true_on_transport_failure :
    (AccountsClient.Delete unreachableEnv localClient World.init accId 0).result
      = Result.returned (true, none) := by
  decide

/-- C3: when the transport delivers a response with status `s` and body `b`,
`doRest` returns exactly `b` with a nil error if `200 ≤ s ≤ 299`, and the empty
byte slice with the error `"<s> != 2xx"` if `s < 200` or `s > 299`. -/
theorem C3_doRest_status_classification (env : Env) (c : AccountsClient) (w : World)
    (httpMethod route jsonData : List Nat) (req : Request) (s : Int) (b : List Nat)
    (hreq : NewRequest env httpMethod
      ((if c.endpoint = [] then defaultEndpoint else c.endpoint) ++ route) jsonData = some req)
    (hdo : env.httpDo w.sent ⟨req.method, req.url, req.body, utf8 "application/vnd.api+json"⟩
      = Reply.response s b) :
    ((200 ≤ s ∧ s ≤ 299) →
      (AccountsClient.doRest env c w httpMethod route jsonData).result
        = Result.returned (b, none))
    ∧ ((s < 200 ∨ s > 299) →
      (AccountsClient.doRest env c w httpMethod route jsonData).result
        = Result.returned ([], some (GoError.errorf (fmtD s ++ utf8 " != 2xx")))) := by
  rw [doRest_result, hreq]
  simp only [hdo]
  constructor
  · intro h
    have h1 : ¬ (s < 200) := by omega
    have h2 : ¬ (s > 299) := by omega
    simp [h1, h2]
  · intro h
    rcases h with h | h <;> simp [h]

/-- C3 (witness): the boundary statuses 199, 200, 299 and 300 against the test
endpoint; the answer with status 200 has an empty body. -/
theorem C3_doRest_status_classification_witness :
    (AccountsClient.doRest (constEnv 199 (utf8 "x")) testClient World.init
        (utf8 "GET") (utf8 "/v1/organisation/accounts") []).result
      = Result.returned ([], some (GoError.errorf (utf8 "199 != 2xx")))
    ∧ (AccountsClient.doRest (constEnv 200 []) testClient World.init
        (utf8 "GET") (utf8 "/v1/organisation/accounts") []).result = Result.returned ([], none)
    ∧ (AccountsClient.doRest (constEnv 299 (utf8 "x")) testClient World.init
        (utf8 "GET") (utf8 "/v1/organisation/accounts") []).result
      = Result.returned (utf8 "x", none)
    ∧ (AccountsClient.doRest (constEnv 300 (utf8 "x")) testClient World.init
        (utf8 "GET") (utf8 "/v1/organisation/accounts") []).result
      = Result.returned ([], some (GoError.errorf (utf8 "300 != 2xx"))) :=
  ⟨(C3_doRest_status_classification (constEnv 199 (utf8 "x")) testClient World.init
      (utf8 "GET") (utf8 "/v1/organisation/accounts") []
      ⟨utf8 "GET", utf8 "http://accountapi:8080/v1/organisation/accounts", [], []⟩ 199 (utf8 "x")
      (by decide) rfl).2 (Or.inl (by decide)),
   (C3_doRest_status_classification (constEnv 200 []) testClient World.init
      (utf8 "GET") (utf8 "/v1/organisation/accounts") []
      ⟨utf8 "GET", utf8 "http://accountapi:8080/v1/organisation/accounts", [], []⟩ 200 []
      (by decide) rfl).1 ⟨by decide, by decide⟩,
   (C3_doRest_status_classification (constEnv 299 (utf8 "x")) testClient World.init
      (utf8 "GET") (utf8 "/v1/organisation/accounts") []
      ⟨utf8 "GET", utf8 "http://accountapi:8080/v1/organisation/accounts", [], []⟩ 299 (utf8 "x")
      (by decide) rfl).1 ⟨by decide, by decide⟩,
   (C3_doRest_status_classification (constEnv 300 (utf8 "x")) testClient World.init
      (utf8 "GET") (utf8 "/v1/organisation/accounts") []
      ⟨utf8 "GET", utf8 "http://accountapi:8080/v1/organisation/accounts", [], []⟩ 300 (utf8 "x")
      (by decide) rfl).2 (Or.inr (by decide))⟩

/-- C4: `Create` on a client whose transport call fails returns a non-nil
error: `doRest` hands back an empty body, which `json.Unmarshal` rejects. -/
theorem C4_Create_error_on_transport_failure (env : Env) (c : AccountsClient) (w : World)
    (id organisationId : List Nat) (attrs : AccountAttributes)
    (hurl : urlParse env ((if c.endpoint = [] then defaultEndpoint else c.endpoint)
      ++ utf8 "/v1/organisation/accounts") = true)
    (hdo : env.httpDo w.sent
      ⟨utf8 "POST", (if c.endpoint = [] then defaultEndpoint else c.endpoint)
          ++ utf8 "/v1/organisation/accounts",
        marshalCreateRequest ⟨⟨id, organisationId, [], [], 0, utf8 "accounts", attrs⟩⟩,
        utf8 "application/vnd.api+json"⟩ = Reply.doError) :
    (AccountsClient.Create env c w id organisationId attrs).result
      = Result.returned (AccountResponse.zero, some GoError.unmarshal) := by
  have hres : (AccountsClient.doRest env c w (utf8 "POST") (utf8 "/v1/organisation/accounts")
      (marshalCreateRequest ⟨⟨id, organisationId, [], [], 0, utf8 "accounts", attrs⟩⟩)).result
      = Result.returned ([], none) := by
    rw [doRest_result, NewRequest_ok env _ _ _ (by decide) (by decide) hurl]
    simp only [hdo]
  have hempty : unmarshalAccountResponse [] = none := by decide
  unfold AccountsClient.Create
  simp only [hres, hempty]

/-- C4 (witness): the call of `TestInvalidEndpoint`. -/
theorem C4_Create_error_on_transport_failure_witness :
    (AccountsClient.Create unreachableEnv localClient World.init accId orgId accAttributes).result
      = Result.returned (AccountResponse.zero, some GoError.unmarshal) :=
  C4_Create_error_on_transport_failure unreachableEnv localClient World.init
    accId orgId accAttributes (by decide) rfl

/-- C5 (counterexample): for a client whose endpoint is unset, the endpoint
field after one `doRest` differs from its value before the call: it holds the
default production URL. -/
theorem C5_endpoint_mutated_when_unset :
    (AccountsClient.doRest (constEnv 200 []) ⟨[]⟩ World.init
        (utf8 "GET") (utf8 "/v1/organisation/accounts") []).client.endpoint
      ≠ (⟨[]⟩ : AccountsClient).endpoint
    ∧ (AccountsClient.doRest (constEnv 200 []) ⟨[]⟩ World.init
        (utf8 "GET") (utf8 "/v1/organisation/accounts") []).client.endpoint
      = utf8 "https://api.form3.tech" := by
  constructor <;> decide

/-- C5 (amended): `doRest` leaves a non-empty endpoint field unchanged and
stores the default production URL in an empty one; the request handed to the
network, if any, has the URL built from the stored value and the route. -/
theorem C5_endpoint_after_doRest (env : Env) (c : AccountsClient) (w : World)
    (httpMethod route jsonData : List Nat) :
    (AccountsClient.doRest env c w httpMethod route jsonData).client.endpoint
        = (if c.endpoint = [] then defaultEndpoint else c.endpoint)
    ∧ ((AccountsClient.doRest env c w httpMethod route jsonData).world.sent = w.sent
      ∨ (AccountsClient.doRest env c w httpMethod route jsonData).world.sent
        = w.sent ++ [⟨if httpMethod = [] then utf8 "GET" else httpMethod,
            (AccountsClient.doRest env c w httpMethod route jsonData).client.endpoint ++ route,
            jsonData, utf8 "application/vnd.api+json"⟩]) := by
  have hc : (AccountsClient.doRest env c w httpMethod route jsonData).client.endpoint
        = (if c.endpoint = [] then defaultEndpoint else c.endpoint) := by
    rw [doRest_client]; split <;> rfl
  refine ⟨hc, ?_⟩
  rw [hc, doRest_sent]
  cases hnr : NewRequest env httpMethod
      ((if c.endpoint = [] then defaultEndpoint else c.endpoint) ++ route) jsonData with
  | none => exact Or.inl rfl
  | some r =>
    obtain ⟨h1, h2, h3, _, _⟩ := NewRequest_some env _ _ _ r hnr
    right
    simp only [h1, h2, h3]

/-- C6 (counterexample): `Fetch` on an id with a line feed hands no request to
the HTTP client: `http.NewRequest` rejects the URL and `doRest` panics. -/
theorem C6_Fetch_control_character_no_request :
    (AccountsClient.Fetch (constEnv 200 []) testClient World.init (utf8 "\n")).world.sent = []
    ∧ (AccountsClient.Fetch (constEnv 200 []) testClient World.init (utf8 "\n")).result
      = Result.panicked := by
  constructor <;> decide

/-- C6 (amended): for every id and version for which `http.NewRequest` accepts
the URL string, `Fetch(id)` hands exactly one request to the HTTP client, with
method `GET`, built from the URL string
`endpoint ++ "/v1/organisation/accounts/" ++ id` and without body, and
`Delete(id, version)` hands over exactly one request, with method `DELETE`,
built from the URL string
`endpoint ++ "/v1/organisation/accounts/" ++ id ++ "?version=" ++ decimal(version)`
and without body; the id is inserted verbatim into the URL string. -/
theorem C6_Fetch_Delete_request_when_constructed (env : Env) (c : AccountsClient) (w : World)
    (id : List Nat) (version : Int) :
    (urlParse env ((if c.endpoint = [] then defaultEndpoint else c.endpoint)
        ++ (utf8 "/v1/organisation/accounts/" ++ id)) = true →
      (AccountsClient.Fetch env c w id).world.sent
        = w.sent ++ [⟨utf8 "GET", (if c.endpoint = [] then defaultEndpoint else c.endpoint)
            ++ (utf8 "/v1/organisation/accounts/" ++ id), [], utf8 "application/vnd.api+json"⟩])
    ∧ (urlParse env ((if c.endpoint = [] then defaultEndpoint else c.endpoint)
        ++ (utf8 "/v1/organisation/accounts/" ++ id ++ utf8 "?version=" ++ fmtD version)) = true →
      (AccountsClient.Delete env c w id version).world.sent
        = w.sent ++ [⟨utf8 "DELETE", (if c.endpoint = [] then defaultEndpoint else c.endpoint)
            ++ (utf8 "/v1/organisation/accounts/" ++ id ++ utf8 "?version=" ++ fmtD version), [],
            utf8 "application/vnd.api+json"⟩]) := by
  constructor
  · intro h
    rw [Fetch_world, doRest_sent_valid env c w (utf8 "GET") _ [] (by decide) (by decide),
      if_pos h]
  · intro h
    rw [Delete_world, doRest_sent_valid env c w (utf8 "DELETE") _ [] (by decide) (by decide),
      if_pos h]

/-- C6 (witness): the sample id of the tests, fetched and deleted at version 0
against the test endpoint. -/
theorem C6_Fetch_Delete_request_when_constructed_witness :
    (AccountsClient.Fetch (constEnv 200 []) testClient World.init accId).world.sent
      = [⟨utf8 "GET",
          utf8 "http://accountapi:8080/v1/organisation/accounts/0d27e265-9605-4b4b-a0e5-3003ea9cc4db",
          [], utf8 "application/vnd.api+json"⟩]
    ∧ (AccountsClient.Delete (constEnv 200 []) testClient World.init accId 0).world.sent
      = [⟨utf8 "DELETE",
          utf8 "http://accountapi:8080/v1/organisation/accounts/0d27e265-9605-4b4b-a0e5-3003ea9cc4db?version=0",
          [], utf8 "application/vnd.api+json"⟩] :=
  ⟨(C6_Fetch_Delete_request_when_constructed (constEnv 200 []) testClient World.init accId 0).1
      (by decide),
   (C6_Fetch_Delete_request_when_constructed (constEnv 200 []) testClient World.init accId 0).2
      (by decide)⟩

/-- C7: `ListPage(pageNumber, pageSize)` validates nothing: for all integers it
is `doList` on the path
`"/v1/organisation/accounts/?page[number]=" ++ decimal(pageNumber) ++ "&page[size]=" ++ decimal(pageSize)`,
and it issues exactly one request, `GET` on that path without body. -/
theorem C7_ListPage_path (env : Env) (c : AccountsClient) (w : World)
    (pageNumber pageSize : Int) :
    AccountsClient.ListPage env c w pageNumber pageSize
        = AccountsClient.doList env c w
            (utf8 "/v1/organisation/accounts/?page[number]=" ++ fmtD pageNumber
              ++ utf8 "&page[size]=" ++ fmtD pageSize)
    ∧ (AccountsClient.ListPage env c w pageNumber pageSize).world.calls
        = w.calls ++ [⟨utf8 "GET",
            utf8 "/v1/organisation/accounts/?page[number]=" ++ fmtD pageNumber
              ++ utf8 "&page[size]=" ++ fmtD pageSize, []⟩]
    ∧ (AccountsClient.ListPage env c w pageNumber pageSize).world.sent
        = w.sent ++
          (if urlParse env ((if c.endpoint = [] then defaultEndpoint else c.endpoint)
              ++ (utf8 "/v1/organisation/accounts/?page[number]=" ++ fmtD pageNumber
                ++ utf8 "&page[size]=" ++ fmtD pageSize)) = true
           then [⟨utf8 "GET", (if c.endpoint = [] then defaultEndpoint else c.endpoint)
              ++ (utf8 "/v1/organisation/accounts/?page[number]=" ++ fmtD pageNumber
                ++ utf8 "&page[size]=" ++ fmtD pageSize), [], utf8 "application/vnd.api+json"⟩]
           else [])
    ∧ fmtD 0 = utf8 "0" ∧ fmtD (-3) = utf8 "-3" ∧ fmtD 25 = utf8 "25" := by
  refine ⟨rfl, ?_, ?_, by decide, by decide, by decide⟩
  · unfold AccountsClient.ListPage
    rw [doList_world, doRest_calls]
  · unfold AccountsClient.ListPage
    rw [doList_world, doRest_sent_valid env c w (utf8 "GET") _ [] (by decide) (by decide)]

/-- C8 (counterexample): the body that `Create` posts for the sample account of
the tests has the keys `created_on`, `modified_on` and `version` under `data`;
and for the id consisting of the byte `0xFF`, which is not valid UTF-8, the id
in the posted body is U+FFFD, not the input. -/
theorem C8_Create_body_has_server_fields :
    (AccountsClient.Create echoEnv testClient World.init accId orgId accAttributes).world.calls
      = [⟨utf8 "POST", utf8 "/v1/organisation/accounts",
          utf8 "\x7b\"data\":\x7b\"id\":\"0d27e265-9605-4b4b-a0e5-3003ea9cc4db\",\"organisation_id\":\"eb0bd6f5-c3f5-44b2-b677-acd23cdde73b\",\"created_on\":\"\",\"modified_on\":\"\",\"version\":0,\"type\":\"accounts\",\"attributes\":\x7b\"bank_id\":\"400300\",\"bank_id_code\":\"GBDSC\",\"base_currency\":\"GBP\",\"bic\":\"NWBKGB22\",\"country\":\"GB\"\x7d\x7d\x7d"⟩]
    ∧ ¬ (∃ data : JSON,
          parseJSON (marshalCreateRequest
              ⟨⟨accId, orgId, [], [], 0, utf8 "accounts", accAttributes⟩⟩)
            = some (JSON.obj [(utf8 "data", data)])
          ∧ utf8 "version" ∉ data.keys ∧ utf8 "created_on" ∉ data.keys
          ∧ utf8 "modified_on" ∉ data.keys)
    ∧ (AccountsClient.Create echoEnv testClient World.init [0xff] orgId accAttributes).world.calls
      = [⟨utf8 "POST", utf8 "/v1/organisation/accounts",
          utf8 "\x7b\"data\":\x7b\"id\":\"\\ufffd\",\"organisation_id\":\"eb0bd6f5-c3f5-44b2-b677-acd23cdde73b\",\"created_on\":\"\",\"modified_on\":\"\",\"version\":0,\"type\":\"accounts\",\"attributes\":\x7b\"bank_id\":\"400300\",\"bank_id_code\":\"GBDSC\",\"base_currency\":\"GBP\",\"bic\":\"NWBKGB22\",\"country\":\"GB\"\x7d\x7d\x7d"⟩] := by
  refine ⟨?_, ?_, ?_⟩
  · rw [Create_world, doRest_calls]
    decide
  · rintro ⟨data, hparse, hv, _, _⟩
    rw [parseJSON_createRequest_valid accId orgId accAttributes (by decide) (by decide)
      (by decide)] at hparse
    simp only [createdJSON, Option.some.injEq, JSON.obj.injEq, List.cons.injEq, Prod.mk.injEq,
      true_and, and_true] at hparse
    subst hparse
    exact hv (by simp [JSON.keys])
  · rw [Create_world, doRest_calls]
    decide

/-- C8 (amended): for every id, organisationId and attributes that are valid
UTF-8, the body that `Create` posts to `"/v1/organisation/accounts"` is a JSON
object with the single key `data`, whose value has `id`, `organisation_id` and
`attributes` equal to the inputs, `type` equal to `"accounts"`, and the
server-assigned fields with their zero values: `created_on` and `modified_on`
are `""` and `version` is `0`. -/
theorem C8_Create_body (env : Env) (c : AccountsClient) (w : World)
    (id organisationId : List Nat) (attrs : AccountAttributes)
    (hid : validUTF8 id = true) (horg : validUTF8 organisationId = true)
    (hattrs : attrs.valid = true) :
    ∃ body : List Nat,
      (AccountsClient.Create env c w id organisationId attrs).world.calls
        = w.calls ++ [⟨utf8 "POST", utf8 "/v1/organisation/accounts", body⟩]
      ∧ (AccountsClient.Create env c w id organisationId attrs).world.sent
        = w.sent ++
          (if urlParse env ((if c.endpoint = [] then defaultEndpoint else c.endpoint)
              ++ utf8 "/v1/organisation/accounts") = true
           then [⟨utf8 "POST", (if c.endpoint = [] then defaultEndpoint else c.endpoint)
              ++ utf8 "/v1/organisation/accounts", body, utf8 "application/vnd.api+json"⟩]
           else [])
      ∧ parseJSON body
        = some (JSON.obj [(utf8 "data", JSON.obj [(utf8 "id", JSON.str id),
            (utf8 "organisation_id", JSON.str organisationId),
            (utf8 "created_on", JSON.str []), (utf8 "modified_on", JSON.str []),
            (utf8 "version", JSON.num (utf8 "0")), (utf8 "type", JSON.str (utf8 "accounts")),
            (utf8 "attributes", JSON.obj [(utf8 "bank_id", JSON.str attrs.BankId),
              (utf8 "bank_id_code", JSON.str attrs.BankIdCode),
              (utf8 "base_currency", JSON.str attrs.BaseCurrency),
              (utf8 "bic", JSON.str attrs.Bic),
              (utf8 "country", JSON.str attrs.Country)])])]) := by
  refine ⟨marshalCreateRequest ⟨⟨id, organisationId, [], [], 0, utf8 "accounts", attrs⟩⟩,
    ?_, ?_, ?_⟩
  · rw [Create_world, doRest_calls]
  · rw [Create_world, doRest_sent_valid env c w (utf8 "POST") _ _ (by decide) (by decide)]
  · rw [parseJSON_createRequest_valid id organisationId attrs hid horg hattrs]
    rfl

/-- C8 (witness): the sample account of the tests. -/
theorem C8_Create_body_witness :
    ∃ body : List Nat,
      (AccountsClient.Create echoEnv testClient World.init accId orgId accAttributes).world.calls
        = World.init.calls ++ [⟨utf8 "POST", utf8 "/v1/organisation/accounts", body⟩]
      ∧ (AccountsClient.Create echoEnv testClient World.init accId orgId accAttributes).world.sent
        = World.init.sent ++
          (if urlParse echoEnv
              ((if testClient.endpoint = [] then defaultEndpoint else testClient.endpoint)
                ++ utf8 "/v1/organisation/accounts") = true
           then [⟨utf8 "POST",
              (if testClient.endpoint = [] then defaultEndpoint else testClient.endpoint)
                ++ utf8 "/v1/organisation/accounts", body, utf8 "application/vnd.api+json"⟩]
           else [])
      ∧ parseJSON body
        = some (JSON.obj [(utf8 "data", JSON.obj [(utf8 "id", JSON.str accId),
            (utf8 "organisation_id", JSON.str orgId),
            (utf8 "created_on", JSON.str []), (utf8 "modified_on", JSON.str []),
            (utf8 "version", JSON.num (utf8 "0")), (utf8 "type", JSON.str (utf8 "accounts")),
            (utf8 "attributes", JSON.obj [(utf8 "bank_id", JSON.str accAttributes.BankId),
              (utf8 "bank_id_code", JSON.str accAttributes.BankIdCode),
              (utf8 "base_currency", JSON.str accAttributes.BaseCurrency),
              (utf8 "bic", JSON.str accAttributes.Bic),
              (utf8 "country", JSON.str accAttributes.Country)])])]) :=
  C8_Create_body echoEnv testClient World.init accId orgId accAttributes
    (by decide) (by decide) (by decide)

/-- C9 (counterexample): for the id consisting of the byte `0xFF`, a service that
answers the `POST` of `Create` with status 201 and the posted body makes
`Create` return a nil error and an account whose id is U+FFFD, not the input. -/
theorem C9_Create_invalid_utf8_not_roundtrip :
    echoEnv.httpDo World.init.sent
        ⟨utf8 "POST", utf8 "http://accountapi:8080/v1/organisation/accounts",
          marshalCreateRequest ⟨⟨[0xff], orgId, [], [], 0, utf8 "accounts", accAttributes⟩⟩,
          utf8 "application/vnd.api+json"⟩
      = Reply.response 201
          (marshalCreateRequest ⟨⟨[0xff], orgId, [], [], 0, utf8 "accounts", accAttributes⟩⟩)
    ∧ (AccountsClient.Create echoEnv testClient World.init [0xff] orgId accAttributes).result
      = Result.returned
          (⟨⟨[0xef, 0xbf, 0xbd], orgId, [], [], 0, utf8 "accounts", accAttributes⟩, []⟩, none)
    ∧ [0xef, 0xbf, 0xbd] ≠ [0xff] := by
  refine ⟨rfl, by decide, by decide⟩

/-- C9 (amended): for every id, organisationId and attributes that are valid
UTF-8, if the transport answers the `POST` of `Create` with a 2xx status and a
body equal to the posted request JSON, then `Create` returns a nil error and an
envelope whose account has the given id, organisation id and attributes and the
type `"accounts"`. -/
theorem C9_Create_echo_roundtrip (env : Env) (c : AccountsClient) (w : World)
    (id organisationId : List Nat) (attrs : AccountAttributes) (s : Int)
    (hid : validUTF8 id = true) (horg : validUTF8 organisationId = true)
    (hattrs : attrs.valid = true)
    (hs : 200 ≤ s ∧ s ≤ 299)
    (hurl : urlParse env ((if c.endpoint = [] then defaultEndpoint else c.endpoint)
      ++ utf8 "/v1/organisation/accounts") = true)
    (hdo : env.httpDo w.sent
      ⟨utf8 "POST", (if c.endpoint = [] then defaultEndpoint else c.endpoint)
          ++ utf8 "/v1/organisation/accounts",
        marshalCreateRequest ⟨⟨id, organisationId, [], [], 0, utf8 "accounts", attrs⟩⟩,
        utf8 "application/vnd.api+json"⟩
      = Reply.response s
          (marshalCreateRequest ⟨⟨id, organisationId, [], [], 0, utf8 "accounts", attrs⟩⟩)) :
    ∃ resp : AccountResponse,
      (AccountsClient.Create env c w id organisationId attrs).result
        = Result.returned (resp, none)
      ∧ resp.Account.Id = id ∧ resp.Account.OrganisationId = organisationId
      ∧ resp.Account.Type_ = utf8 "accounts" ∧ resp.Account.Attributes = attrs := by
  refine ⟨⟨⟨id, organisationId, [], [], 0, utf8 "accounts", attrs⟩, []⟩, ?_, rfl, rfl, rfl, rfl⟩
  have hres : (AccountsClient.doRest env c w (utf8 "POST") (utf8 "/v1/organisation/accounts")
      (marshalCreateRequest ⟨⟨id, organisationId, [], [], 0, utf8 "accounts", attrs⟩⟩)).result
      = Result.returned
          (marshalCreateRequest ⟨⟨id, organisationId, [], [], 0, utf8 "accounts", attrs⟩⟩,
            none) := by
    rw [doRest_result, NewRequest_ok env _ _ _ (by decide) (by decide) hurl]
    simp only [hdo]
    have h1 : ¬ (s < 200) := by omega
    have h2 : ¬ (s > 299) := by omega
    simp [h1, h2]
  unfold AccountsClient.Create
  simp only [hres, unmarshal_createRequest_valid id organisationId attrs hid horg hattrs]

/-- C9 (witness): the sample account of the tests against a service that answers
201 with the posted body. -/
theorem C9_Create_echo_roundtrip_witness :
    ∃ resp : AccountResponse,
      (AccountsClient.Create echoEnv testClient World.init accId orgId accAttributes).result
        = Result.returned (resp, none)
      ∧ resp.Account.Id = accId ∧ resp.Account.OrganisationId = orgId
      ∧ resp.Account.Type_ = utf8 "accounts" ∧ resp.Account.Attributes = accAttributes :=
  C9_Create_echo_roundtrip echoEnv testClient World.init accId orgId accAttributes 201
    (by decide) (by decide) (by decide) (by decide) (by decide) rfl

/-- C10 (evaluation at the failing input): when `http.NewRequest` fails, for a
route with a control character or for an invalid method token, `doRest` does
not return: it dereferences the nil request and panics; so does `Fetch` on an
id with a control character. -/
theorem C10_doRest_panics_when_NewRequest_fails :
    NewRequest (constEnv 200 []) (utf8 "GET")
        (utf8 "http://accountapi:8080/v1/organisation/accounts/\n") [] = none
    ∧ (AccountsClient.doRest (constEnv 200 []) testClient World.init
        (utf8 "GET") (utf8 "/v1/organisation/accounts/\n") []).result = Result.panicked
    ∧ (AccountsClient.Fetch (constEnv 200 []) testClient World.init (utf8 "\n")).result
        = Result.panicked
    ∧ (AccountsClient.doRest (constEnv 200 []) testClient World.init
        (utf8 "BAD METHOD") (utf8 "/v1/organisation/accounts") []).result = Result.panicked := by
  refine ⟨by decide, by decide, by decide, by decide⟩
